import Mathlib

/-
Shallow embedding of the sprint-tracker storage core: the three entity kinds
(Sprint, Goal, SuccessCriterion), the validation module (src/validation.ts),
the three StorageAdapter implementations (the in-memory mock, the SQLite
adapter's observable row semantics, and the Dexie/IndexedDB adapter's
observable index semantics), the entity services and the export/import
service.  JavaScript Maps and SQL tables are modelled as Lean lists carrying
the JS insertion order (respectively rowid order); a JS Map's key-uniqueness
is part of the representation, so "delete by key" is modelled as filtering
the key out.  JS numbers that carry hours are modelled as rationals.
-/

namespace SprintTracker

/-! JS string comparison.  JavaScript compares strings by UTF-16 code units;
for the ASCII identifiers and ISO dates used throughout this program that is
plain lexicographic order on code points, which we implement directly on the
character list (the built-in String order is not used because the embedding
must evaluate inside the kernel). -/

def charListLt : List Char → List Char → Bool
  | [], [] => false
  | [], _ :: _ => true
  | _ :: _, [] => false
  | a :: as, b :: bs => if a < b then true else if b < a then false else charListLt as bs

/-- JS `a < b` on strings. -/
def jsStrLt (a b : String) : Bool := charListLt a.data b.data

/-- JS `a <= b` on strings. -/
def jsStrLe (a b : String) : Bool := !(jsStrLt b a)

/-! Calendar dates.  The JS code parses `YYYY-MM-DD` strings with `new Date`,
adds days with `setDate`, and prints with `toISOString().split('T')[0]` — all
of which is plain proleptic-Gregorian day arithmetic at UTC midnight.  The
model assumes a UTC environment (the code mixes the local-time `getDay` with
the UTC `toISOString`; in a non-UTC zone the two can disagree near midnight). -/

structure CalDate where
  y : Int
  m : Int
  d : Int
  deriving DecidableEq

def isLeapYear (y : Int) : Bool := (y % 4 == 0 && y % 100 != 0) || y % 400 == 0

def daysInMonth (y m : Int) : Int :=
  if m == 2 then (if isLeapYear y then 29 else 28)
  else if m == 4 || m == 6 || m == 9 || m == 11 then 30
  else 31

/-- Days since 1970-01-01 of a civil date (the standard era-based algorithm,
with explicit floor division for the era so that it is valid for all years). -/
def civilToDays (y m d : Int) : Int :=
  let yAdj := if m ≤ 2 then y - 1 else y
  let era := Int.fdiv yAdj 400
  let yoe := yAdj - era * 400
  let mp := if m > 2 then m - 3 else m + 9
  let doy := (153 * mp + 2) / 5 + d - 1
  let doe := yoe * 365 + yoe / 4 - yoe / 100 + doy
  era * 146097 + doe - 719468

/-- Civil date of a count of days since 1970-01-01 (inverse of `civilToDays`). -/
def daysToCivil (z : Int) : CalDate :=
  let zAdj := z + 719468
  let era := Int.fdiv zAdj 146097
  let doe := zAdj - era * 146097
  let yoe := (doe - doe / 1460 + doe / 36524 - doe / 146096) / 365
  let yr := yoe + era * 400
  let doy := doe - (365 * yoe + yoe / 4 - yoe / 100)
  let mp := (5 * doy + 2) / 153
  let d := doy - (153 * mp + 2) / 5 + 1
  let m := if mp < 10 then mp + 3 else mp - 9
  ⟨if m ≤ 2 then yr + 1 else yr, m, d⟩

/-- JS `setDate(getDate() + n)`: calendar-day addition with month/year rollover. -/
def addDays (dt : CalDate) (n : Int) : CalDate :=
  daysToCivil (civilToDays dt.y dt.m dt.d + n)

/-- JS `getDay()`: 0 = Sunday … 6 = Saturday.  1970-01-01 was a Thursday. -/
def dayOfWeek (dt : CalDate) : Int := (civilToDays dt.y dt.m dt.d + 4) % 7

def isDigitChar (c : Char) : Bool := '0' ≤ c && c ≤ '9'

def digitVal (c : Char) : Int := (c.toNat : Int) - 48

/-- JS `new Date("YYYY-MM-DD")`: the ISO date grammar requires the 4-2-2 digit
shape with MM in 01..12 and DD in 01..31; a grammatical day beyond the month's
length still parses (the timestamp rolls over into the next month). -/
def parseDate (s : String) : Option CalDate :=
  match s.data with
  | [y1, y2, y3, y4, h1, m1, m2, h2, d1, d2] =>
    if isDigitChar y1 && isDigitChar y2 && isDigitChar y3 && isDigitChar y4 &&
       h1 == '-' && isDigitChar m1 && isDigitChar m2 && h2 == '-' &&
       isDigitChar d1 && isDigitChar d2 then
      let y := digitVal y1 * 1000 + digitVal y2 * 100 + digitVal y3 * 10 + digitVal y4
      let m := digitVal m1 * 10 + digitVal m2
      let d := digitVal d1 * 10 + digitVal d2
      if 1 ≤ m && m ≤ 12 && 1 ≤ d && d ≤ 31 then some ⟨y, m, d⟩ else none
    else none
  | _ => none

def digitChar (n : Int) : Char := Char.ofNat (48 + n.toNat)

def pad2 (n : Int) : List Char := [digitChar (n / 10 % 10), digitChar (n % 10)]

def pad4 (n : Int) : List Char :=
  [digitChar (n / 1000 % 10), digitChar (n / 100 % 10), digitChar (n / 10 % 10), digitChar (n % 10)]

/-- JS `toISOString().split('T')[0]` for a UTC-midnight date in years 0–9999. -/
def isoOfDate (dt : CalDate) : String :=
  ⟨pad4 dt.y ++ ['-'] ++ pad2 dt.m ++ ['-'] ++ pad2 dt.d⟩

/-! The validation module (src/validation.ts).  `typeof` checks cannot fail in
the typed model and are noted where they occur in the source. -/

def isHexDigit (c : Char) : Bool :=
  ('0' ≤ c && c ≤ '9') || ('a' ≤ c && c ≤ 'f') || ('A' ≤ c && c ≤ 'F')

/-- Source: `isValidUUID` — the RFC 4122 regex
`[0-9a-f]{8}-[0-9a-f]{4}-[1-5][0-9a-f]{3}-[89ab][0-9a-f]{3}-[0-9a-f]{12}`,
case-insensitive, checked position by position. -/
def isValidUUID (s : String) : Bool :=
  let cs := s.data
  cs.length == 36 &&
  (cs.take 8).all isHexDigit &&
  cs.getD 8 ' ' == '-' &&
  ((cs.drop 9).take 4).all isHexDigit &&
  cs.getD 13 ' ' == '-' &&
  (let c := cs.getD 14 ' '; '1' ≤ c && c ≤ '5') &&
  ((cs.drop 15).take 3).all isHexDigit &&
  cs.getD 18 ' ' == '-' &&
  (let c := cs.getD 19 ' ';
   c == '8' || c == '9' || c == 'a' || c == 'b' || c == 'A' || c == 'B') &&
  ((cs.drop 20).take 3).all isHexDigit &&
  cs.getD 23 ' ' == '-' &&
  (cs.drop 24).all isHexDigit

/-- Source: `isValidDate` — regex shape check, then `new Date(date)` must give a
valid timestamp that `toISOString` prints back as the input.  A grammatical
string fails the round-trip exactly when its day exceeds the month's length
(JS rolls such a date into the next month, changing the printed string). -/
def isValidDate (s : String) : Bool :=
  match parseDate s with
  | some dt => 1 ≤ dt.d && dt.d ≤ daysInMonth dt.y dt.m
  | none => false

/-- Source: `isValidDateTime(s)` is `!isNaN(new Date(s).getTime())`, i.e.
anything the JS Date constructor parses.  The model recognizes the ISO-8601
UTC profile this system itself produces with `toISOString`
(`YYYY-MM-DDTHH:MM:SS.mmmZ`), the only form occurring in its data. -/
def isValidDateTime (s : String) : Bool :=
  match s.data with
  | [y1, y2, y3, y4, c1, mo1, mo2, c2, d1, d2, t, h1, h2, c3, mi1, mi2, c4,
     s1, s2, dot, ms1, ms2, ms3, z] =>
    isDigitChar y1 && isDigitChar y2 && isDigitChar y3 && isDigitChar y4 &&
    c1 == '-' && isDigitChar mo1 && isDigitChar mo2 && c2 == '-' &&
    isDigitChar d1 && isDigitChar d2 && t == 'T' &&
    isDigitChar h1 && isDigitChar h2 && c3 == ':' &&
    isDigitChar mi1 && isDigitChar mi2 && c4 == ':' &&
    isDigitChar s1 && isDigitChar s2 && dot == '.' &&
    isDigitChar ms1 && isDigitChar ms2 && isDigitChar ms3 && z == 'Z' &&
    (let mo := digitVal mo1 * 10 + digitVal mo2; 1 ≤ mo && mo ≤ 12) &&
    (let d := digitVal d1 * 10 + digitVal d2; 1 ≤ d && d ≤ 31) &&
    (digitVal h1 * 10 + digitVal h2 ≤ 23) &&
    (digitVal mi1 * 10 + digitVal mi2 ≤ 59) &&
    (digitVal s1 * 10 + digitVal s2 ≤ 59)
  | _ => false

/-- Source: `isValidHoursPrecision` — `hours >= 0 && (hours * 4) % 1 === 0`.
For a rational h, `h >= 0` is `0 ≤ h.num`, and `(h * 4) % 1 === 0` says that
h·4 is an integer, i.e. the reduced denominator of h divides 4. -/
def isValidHoursPrecision (h : Rat) : Bool := 0 ≤ h.num && 4 % h.den == 0

structure ValidationResult where
  valid : Bool
  errors : List String
  deriving DecidableEq

structure CreateSprintInput where
  volgnummer : Int
  startdatum : String
  einddatum : String
  deriving DecidableEq

structure UpdateSprintInput where
  volgnummer : Option Int := none
  startdatum : Option String := none
  einddatum : Option String := none
  deriving DecidableEq

/-- Source: `validateCreateSprint`.  The `typeof`/`Number.isInteger` parts of
the volgnummer check cannot fail for the integer model. -/
def validateCreateSprint (input : CreateSprintInput) : ValidationResult :=
  let errors :=
    (if input.volgnummer < 1 then ["volgnummer must be a positive integer"] else []) ++
    (if !isValidDate input.startdatum then
      ["startdatum must be a valid date in YYYY-MM-DD format"] else []) ++
    (if !isValidDate input.einddatum then
      ["einddatum must be a valid date in YYYY-MM-DD format"] else []) ++
    (if isValidDate input.startdatum && isValidDate input.einddatum &&
        jsStrLe input.einddatum input.startdatum then
      ["einddatum must be after startdatum"] else [])
  ⟨errors.isEmpty, errors⟩

/-- Source: `validateUpdateSprint` — per-field format checks only; unlike
`validateCreateSprint` it has no einddatum-after-startdatum comparison. -/
def validateUpdateSprint (input : UpdateSprintInput) : ValidationResult :=
  let errors :=
    (match input.volgnummer with
     | some v => if v < 1 then ["volgnummer must be a positive integer"] else []
     | none => []) ++
    (match input.startdatum with
     | some sd => if !isValidDate sd then
        ["startdatum must be a valid date in YYYY-MM-DD format"] else []
     | none => []) ++
    (match input.einddatum with
     | some ed => if !isValidDate ed then
        ["einddatum must be a valid date in YYYY-MM-DD format"] else []
     | none => [])
  ⟨errors.isEmpty, errors⟩

structure CreateGoalInput where
  sprint_id : String
  titel : String
  beschrijving : String
  eigenaar : String
  geschatte_uren : Rat
  deriving DecidableEq

structure UpdateGoalInput where
  titel : Option String := none
  beschrijving : Option String := none
  eigenaar : Option String := none
  geschatte_uren : Option Rat := none
  werkelijke_uren : Option (Option Rat) := none
  behaald : Option (Option Bool) := none
  toelichting : Option (Option String) := none
  geleerde_lessen : Option (Option String) := none
  deriving DecidableEq

/-- Source: `validateCreateGoal`.  String lengths are JS `.length`. -/
def validateCreateGoal (input : CreateGoalInput) : ValidationResult :=
  let errors :=
    (if !isValidUUID input.sprint_id then ["sprint_id must be a valid UUID"] else []) ++
    (if input.titel.length == 0 then ["titel is required"]
     else if input.titel.length > 200 then ["titel must not exceed 200 characters"] else []) ++
    (if input.beschrijving.length > 2000 then
      ["beschrijving must not exceed 2000 characters"] else []) ++
    (if input.eigenaar.length == 0 then ["eigenaar is required"]
     else if input.eigenaar.length > 50 then ["eigenaar must not exceed 50 characters"] else []) ++
    (if input.geschatte_uren < 0 then ["geschatte_uren must be a non-negative number"]
     else if !isValidHoursPrecision input.geschatte_uren then
      ["geschatte_uren must be in 0.25 hour increments"] else [])
  ⟨errors.isEmpty, errors⟩

/-- Source: `validateUpdateGoal`.  An absent field (`undefined`) is `none`; a
field set to JS `null` is `some none`. -/
def validateUpdateGoal (input : UpdateGoalInput) : ValidationResult :=
  let errors :=
    (match input.titel with
     | some ti =>
       if ti.length == 0 then ["titel cannot be empty"]
       else if ti.length > 200 then ["titel must not exceed 200 characters"] else []
     | none => []) ++
    (match input.beschrijving with
     | some b => if b.length > 2000 then ["beschrijving must not exceed 2000 characters"] else []
     | none => []) ++
    (match input.eigenaar with
     | some e =>
       if e.length == 0 then ["eigenaar cannot be empty"]
       else if e.length > 50 then ["eigenaar must not exceed 50 characters"] else []
     | none => []) ++
    (match input.geschatte_uren with
     | some q =>
       if q < 0 then ["geschatte_uren must be a non-negative number"]
       else if !isValidHoursPrecision q then
        ["geschatte_uren must be in 0.25 hour increments"] else []
     | none => []) ++
    (match input.werkelijke_uren with
     | some (some v) =>
       if v < 0 then ["werkelijke_uren must be a non-negative number or null"]
       else if !isValidHoursPrecision v then
        ["werkelijke_uren must be in 0.25 hour increments"] else []
     | _ => []) ++
    (match input.toelichting with
     | some (some t) => if t.length > 2000 then ["toelichting must not exceed 2000 characters"] else []
     | _ => []) ++
    (match input.geleerde_lessen with
     | some (some g) => if g.length > 2000 then ["geleerde_lessen must not exceed 2000 characters"] else []
     | _ => [])
  ⟨errors.isEmpty, errors⟩

structure CreateSuccessCriterionInput where
  goal_id : String
  beschrijving : String
  deriving DecidableEq

/-- Source: `validateCreateSuccessCriterion`. -/
def validateCreateSuccessCriterion (input : CreateSuccessCriterionInput) : ValidationResult :=
  let errors :=
    (if !isValidUUID input.goal_id then ["goal_id must be a valid UUID"] else []) ++
    (if input.beschrijving.length == 0 then ["beschrijving is required"]
     else if input.beschrijving.length > 500 then
      ["beschrijving must not exceed 500 characters"] else [])
  ⟨errors.isEmpty, errors⟩

/-! The data model (src/types.ts) and the store state.  A backend's physical
store is three collections keyed by entity id; the Lean state keeps them as
lists in JS-Map insertion order (respectively SQLite rowid order). -/

structure Sprint where
  id : String
  volgnummer : Int
  startdatum : String
  einddatum : String
  deriving DecidableEq

structure Goal where
  id : String
  sprint_id : String
  titel : String
  beschrijving : String
  eigenaar : String
  geschatte_uren : Rat
  werkelijke_uren : Option Rat
  behaald : Option Bool
  toelichting : Option String
  geleerde_lessen : Option String
  aangemaakt_op : String
  gewijzigd_op : String
  deriving DecidableEq

structure SuccessCriterion where
  id : String
  goal_id : String
  beschrijving : String
  voltooid : Bool
  deriving DecidableEq

structure StoreState where
  sprints : List Sprint
  goals : List Goal
  criteria : List SuccessCriterion
  deriving DecidableEq

def emptyState : StoreState := ⟨[], [], []⟩

/-- JS `Map.set(key x, x)`: replace in place when the key is present, append
otherwise.  Keys in a JS Map are unique. -/
def mapSet {α} (key : α → String) (l : List α) (x : α) : List α :=
  if l.any (fun y => key y == key x) then l.map (fun y => if key y == key x then x else y)
  else l ++ [x]

/-- JS `Map.delete(id)`: returns whether the key was present and removes it. -/
def mapDelete {α} (key : α → String) (l : List α) (id : String) : Bool × List α :=
  (l.any (fun y => key y == id), l.filter (fun y => key y != id))

/-- Partial Goal as assembled by `GoalService.update` (a `Partial<Goal>`
restricted to the fields the services ever send).  An absent field is `none`;
a field set to JS `null` is `some none`. -/
structure GoalUpdates where
  titel : Option String := none
  beschrijving : Option String := none
  eigenaar : Option String := none
  geschatte_uren : Option Rat := none
  werkelijke_uren : Option (Option Rat) := none
  behaald : Option (Option Bool) := none
  toelichting : Option (Option String) := none
  geleerde_lessen : Option (Option String) := none
  gewijzigd_op : Option String := none
  deriving DecidableEq

/-- JS object spread `{ ...existing, ...updates }` for goals. -/
def applyGoalUpdates (u : GoalUpdates) (g : Goal) : Goal :=
  { g with
    titel := u.titel.getD g.titel,
    beschrijving := u.beschrijving.getD g.beschrijving,
    eigenaar := u.eigenaar.getD g.eigenaar,
    geschatte_uren := u.geschatte_uren.getD g.geschatte_uren,
    werkelijke_uren := u.werkelijke_uren.getD g.werkelijke_uren,
    behaald := u.behaald.getD g.behaald,
    toelichting := u.toelichting.getD g.toelichting,
    geleerde_lessen := u.geleerde_lessen.getD g.geleerde_lessen,
    gewijzigd_op := u.gewijzigd_op.getD g.gewijzigd_op }

structure UpdateSuccessCriterionInput where
  beschrijving : Option String := none
  voltooid : Option Bool := none
  deriving DecidableEq

/-- The `startdatum <= today && today <= einddatum` range condition shared by
every backend's current-sprint query. -/
def inRange (s : Sprint) (today : String) : Bool :=
  jsStrLe s.startdatum today && jsStrLe today s.einddatum

/-- A stable sort by a boolean comparator (JS `Array.sort`, SQL `ORDER BY`
and an IndexedDB index scan are all stable presentations of the same total
preorder; insertion sort computes the stable sort structurally). -/
def sortBy {α} (le : α → α → Bool) (l : List α) : List α :=
  l.insertionSort (fun a b => le a b = true)

/-- Ascending JS sort comparator `(a, b) => a.volgnummer - b.volgnummer`. -/
def volLe (a b : Sprint) : Bool := a.volgnummer ≤ b.volgnummer

/-- Descending volgnummer order (`ORDER BY volgnummer DESC`). -/
def volGe (a b : Sprint) : Bool := b.volgnummer ≤ a.volgnummer

/-- Ascending order on goal creation timestamps (`ORDER BY aangemaakt_op ASC`;
the mock's `localeCompare` sort agrees with code-unit order on the ASCII ISO
timestamps this system stores). -/
def dateLe (a b : Goal) : Bool := jsStrLe a.aangemaakt_op b.aangemaakt_op

/-! The in-memory mock adapter (testing/mock-storage.ts): three JS Maps,
queried by linear scans over insertion order. -/

namespace MockStorage

def createSprint (s : Sprint) (st : StoreState) : StoreState :=
  { st with sprints := mapSet (·.id) st.sprints s }

def getSprintById (id : String) (st : StoreState) : Option Sprint :=
  st.sprints.find? (fun s => s.id == id)

def getSprintByVolgnummer (v : Int) (st : StoreState) : Option Sprint :=
  st.sprints.find? (fun s => s.volgnummer == v)

/-- Source: `Array.from(sprints.values()).sort((a, b) => a.volgnummer - b.volgnummer)`
(a stable ascending sort). -/
def getAllSprints (st : StoreState) : List Sprint :=
  sortBy volLe st.sprints

def updateSprint (id : String) (u : UpdateSprintInput) (st : StoreState) : StoreState :=
  match st.sprints.find? (fun s => s.id == id) with
  | some existing =>
    let merged : Sprint := { existing with
      volgnummer := u.volgnummer.getD existing.volgnummer,
      startdatum := u.startdatum.getD existing.startdatum,
      einddatum := u.einddatum.getD existing.einddatum }
    { st with sprints := mapSet (·.id) st.sprints merged }
  | none => st

/-- One pass of the mock's sprint-cascade loop body: when the goal belongs to
the sprint, delete the goal's criteria and then the goal itself (each removed
by its map key, which is unique in a JS Map, hence a filter). -/
def cascadeStep (id : String) (acc : StoreState) (g : Goal) : StoreState :=
  if g.sprint_id == id then
    { acc with
      criteria := acc.criteria.filter (fun c => c.goal_id != g.id),
      goals := acc.goals.filter (fun x => x.id != g.id) }
  else acc

/-- Source: iterates the goals map, deleting each goal whose `sprint_id`
matches together with that goal's criteria, then `sprints.delete(id)`. -/
def deleteSprint (id : String) (st : StoreState) : Bool × StoreState :=
  let st1 := st.goals.foldl (cascadeStep id) st
  let del := mapDelete (·.id) st1.sprints id
  (del.1, { st1 with sprints := del.2 })

def getMaxVolgnummer (st : StoreState) : Option Int :=
  st.sprints.foldl (fun acc s =>
    match acc with
    | none => some s.volgnummer
    | some m => if s.volgnummer > m then some s.volgnummer else acc) none

/-- Source: a `for … of sprints.values()` loop returning the first sprint
whose range contains the date — insertion order, not volgnummer order. -/
def getCurrentSprint (today : String) (st : StoreState) : Option Sprint :=
  st.sprints.find? (fun s => inRange s today)

/-- Source: a scan keeping the sprint with the strictly largest volgnummer
seen so far (the first maximum wins on ties). -/
def getLatestSprint (st : StoreState) : Option Sprint :=
  st.sprints.foldl (fun acc s =>
    match acc with
    | none => some s
    | some l => if s.volgnummer > l.volgnummer then some s else acc) none

def createGoal (g : Goal) (st : StoreState) : StoreState :=
  { st with goals := mapSet (·.id) st.goals g }

def getGoalById (id : String) (st : StoreState) : Option Goal :=
  st.goals.find? (fun g => g.id == id)

def getGoalsBySprintId (sid : String) (st : StoreState) : List Goal :=
  sortBy dateLe (st.goals.filter (fun g => g.sprint_id == sid))

def getGoalsByOwner (owner : String) (st : StoreState) : List Goal :=
  sortBy dateLe (st.goals.filter (fun g => g.eigenaar == owner))

def getAllGoals (st : StoreState) : List Goal :=
  sortBy dateLe st.goals

def updateGoal (id : String) (u : GoalUpdates) (st : StoreState) : StoreState :=
  match st.goals.find? (fun g => g.id == id) with
  | some existing => { st with goals := mapSet (·.id) st.goals (applyGoalUpdates u existing) }
  | none => st

/-- Source: deletes the criteria whose `goal_id` matches (each by its unique
map key), then `goals.delete(id)`. -/
def deleteGoal (id : String) (st : StoreState) : Bool × StoreState :=
  let criteria1 := st.criteria.filter (fun c => c.goal_id != id)
  let del := mapDelete (·.id) st.goals id
  (del.1, { st with goals := del.2, criteria := criteria1 })

def sprintExists (id : String) (st : StoreState) : Bool :=
  st.sprints.any (fun s => s.id == id)

def createCriterion (c : SuccessCriterion) (st : StoreState) : StoreState :=
  { st with criteria := mapSet (·.id) st.criteria c }

def getCriterionById (id : String) (st : StoreState) : Option SuccessCriterion :=
  st.criteria.find? (fun c => c.id == id)

def getCriteriaByGoalId (gid : String) (st : StoreState) : List SuccessCriterion :=
  st.criteria.filter (fun c => c.goal_id == gid)

def updateCriterion (id : String) (u : UpdateSuccessCriterionInput) (st : StoreState) : StoreState :=
  match st.criteria.find? (fun c => c.id == id) with
  | some existing =>
    let merged : SuccessCriterion := { existing with
      beschrijving := u.beschrijving.getD existing.beschrijving,
      voltooid := u.voltooid.getD existing.voltooid }
    { st with criteria := mapSet (·.id) st.criteria merged }
  | none => st

def deleteCriterion (id : String) (st : StoreState) : Bool × StoreState :=
  let del := mapDelete (·.id) st.criteria id
  (del.1, { st with criteria := del.2 })

def goalExists (id : String) (st : StoreState) : Bool :=
  st.goals.any (fun g => g.id == id)

/-- Source: `transaction(fn) { return fn(); }` — the mock just runs the unit
of work against the shared mutable maps.  In the explicit-state embedding a
unit of work returns a result (or a thrown error) together with the state it
reached; the mock keeps that state even when the work throws. -/
def transaction {α} (work : StoreState → Except String α × StoreState)
    (st : StoreState) : Except String α × StoreState :=
  work st

end MockStorage

/-! The SQLite adapter (storage.ts): observable row semantics of the prepared
statements, with the schema's `ON DELETE CASCADE` foreign keys.  Only the
operations the claims need are modelled. -/

namespace SQLiteStorage

def getSprintById (id : String) (st : StoreState) : Option Sprint :=
  st.sprints.find? (fun s => s.id == id)

def getGoalById (id : String) (st : StoreState) : Option Goal :=
  st.goals.find? (fun g => g.id == id)

def getCriterionById (id : String) (st : StoreState) : Option SuccessCriterion :=
  st.criteria.find? (fun c => c.id == id)

/-- Source: `SELECT * FROM sprint WHERE startdatum <= ? AND einddatum >= ?
ORDER BY volgnummer DESC LIMIT 1`. -/
def getCurrentSprint (today : String) (st : StoreState) : Option Sprint :=
  (sortBy volGe (st.sprints.filter (fun s => inRange s today))).head?

/-- Source: `DELETE FROM sprint WHERE id = ?`; the schema cascades a deleted
sprint row to the goals referencing it and further to their criteria.
`result.changes` counts the sprint rows only. -/
def deleteSprint (id : String) (st : StoreState) : Bool × StoreState :=
  let deletedSprints := st.sprints.filter (fun s => s.id == id)
  let deletedGoals := st.goals.filter (fun g => deletedSprints.any (fun s => s.id == g.sprint_id))
  (st.sprints.any (fun s => s.id == id),
   { sprints := st.sprints.filter (fun s => s.id != id),
     goals := st.goals.filter (fun g => !(deletedSprints.any (fun s => s.id == g.sprint_id))),
     criteria := st.criteria.filter (fun c => !(deletedGoals.any (fun g => g.id == c.goal_id))) })

/-- Source: `DELETE FROM goal WHERE id = ?` with the criteria cascade. -/
def deleteGoal (id : String) (st : StoreState) : Bool × StoreState :=
  let deletedGoals := st.goals.filter (fun g => g.id == id)
  (st.goals.any (fun g => g.id == id),
   { st with
     goals := st.goals.filter (fun g => g.id != id),
     criteria := st.criteria.filter (fun c => !(deletedGoals.any (fun g => g.id == c.goal_id))) })

/-- Source: `DELETE FROM success_criterion WHERE id = ?`. -/
def deleteCriterion (id : String) (st : StoreState) : Bool × StoreState :=
  (st.criteria.any (fun c => c.id == id),
   { st with criteria := st.criteria.filter (fun c => c.id != id) })

end SQLiteStorage

/-! The Dexie/IndexedDB adapter (dexie-storage.ts): observable semantics over
the object stores; an index enumerates entries ordered by (indexed key,
primary key).  Only the operations the claims need are modelled. -/

namespace DexieStorage

def getSprintById (id : String) (st : StoreState) : Option Sprint :=
  st.sprints.find? (fun s => s.id == id)

def getGoalById (id : String) (st : StoreState) : Option Goal :=
  st.goals.find? (fun g => g.id == id)

def getCriterionById (id : String) (st : StoreState) : Option SuccessCriterion :=
  st.criteria.find? (fun c => c.id == id)

/-- The (startdatum, primary key) order of the `startdatum` index. -/
def startIdLe (a b : Sprint) : Bool :=
  jsStrLt a.startdatum b.startdatum || (a.startdatum == b.startdatum && jsStrLe a.id b.id)

/-- Source: `where('startdatum').belowOrEqual(today).filter(s => s.einddatum >=
today).reverse().first()` — the last entry of the startdatum index (not the
volgnummer order) passing both bounds. -/
def getCurrentSprint (today : String) (st : StoreState) : Option Sprint :=
  (((sortBy startIdLe st.sprints).filter (fun s => jsStrLe s.startdatum today)).filter
    (fun s => jsStrLe today s.einddatum)).getLast?

/-- Source: collects the primary keys of the goals owned by the sprint,
deletes their criteria when that key list is nonempty, deletes the goals,
deletes the sprint — and returns `true` unconditionally. -/
def deleteSprint (id : String) (st : StoreState) : Bool × StoreState :=
  let goalIds := (st.goals.filter (fun g => g.sprint_id == id)).map (fun g => g.id)
  let criteria1 :=
    if goalIds.length > 0 then st.criteria.filter (fun c => !(goalIds.contains c.goal_id))
    else st.criteria
  (true,
   { sprints := st.sprints.filter (fun s => s.id != id),
     goals := st.goals.filter (fun g => g.sprint_id != id),
     criteria := criteria1 })

/-- Source: deletes the criteria whose `goal_id` matches, then the goal, and
returns `true` unconditionally. -/
def deleteGoal (id : String) (st : StoreState) : Bool × StoreState :=
  (true,
   { st with
     goals := st.goals.filter (fun g => g.id != id),
     criteria := st.criteria.filter (fun c => c.goal_id != id) })

/-- Source: `criteria.delete(id)` then `return true` unconditionally. -/
def deleteCriterion (id : String) (st : StoreState) : Bool × StoreState :=
  (true, { st with criteria := st.criteria.filter (fun c => c.id != id) })

/-- Source: the native Dexie read-write transaction over the three stores: on
a throw inside the work every store is rolled back to the pre-transaction
state and the error propagates to the caller. -/
def transaction {α} (work : StoreState → Except String α × StoreState)
    (st : StoreState) : Except String α × StoreState :=
  match work st with
  | (.ok a, st') => (.ok a, st')
  | (.error e, _) => (.error e, st)

end DexieStorage

/-! Entity services (sprint-service.ts, goal-service.ts, criterion-service.ts).
The services are adapter-generic; the embedding instantiates them with the
mock adapter.  `uuidv4()` and `new Date().toISOString()` are effects; the
embedding passes the generated id and the current timestamp as parameters. -/

namespace SprintService

def create (genId : String) (input : CreateSprintInput) (st : StoreState) :
    Except String Sprint × StoreState :=
  let validation := validateCreateSprint input
  if !validation.valid then
    (.error ("Validation failed: " ++ String.intercalate ", " validation.errors), st)
  else
    let sprint : Sprint := ⟨genId, input.volgnummer, input.startdatum, input.einddatum⟩
    (.ok sprint, MockStorage.createSprint sprint st)

def getById (id : String) (st : StoreState) : Except String (Option Sprint) :=
  if !isValidUUID id then .error "Invalid sprint ID format"
  else .ok (MockStorage.getSprintById id st)

/-- Source: `SprintService.update` — id-shape guard, per-field validation (see
`validateUpdateSprint`), existence check, then the partial update; the method
re-reads the sprint and returns it with a non-null assertion (the read cannot
miss, since the update pass leaves the id untouched). -/
def update (id : String) (input : UpdateSprintInput) (st : StoreState) :
    Except String Sprint × StoreState :=
  if !isValidUUID id then (.error "Invalid sprint ID format", st)
  else
    let validation := validateUpdateSprint input
    if !validation.valid then
      (.error ("Validation failed: " ++ String.intercalate ", " validation.errors), st)
    else
      match MockStorage.getSprintById id st with
      | none => (.error ("Sprint with ID " ++ id ++ " not found"), st)
      | some _ =>
        let hasField := input.volgnummer.isSome || input.startdatum.isSome ||
          input.einddatum.isSome
        let st1 := if hasField then MockStorage.updateSprint id input st else st
        match MockStorage.getSprintById id st1 with
        | some s => (.ok s, st1)
        | none => (.error ("Sprint with ID " ++ id ++ " not found"), st1)

def delete (id : String) (st : StoreState) : Except String Bool × StoreState :=
  if !isValidUUID id then (.error "Invalid sprint ID format", st)
  else
    let r := MockStorage.deleteSprint id st
    (.ok r.1, r.2)

structure SuggestedDates where
  startdatum : String
  einddatum : String
  deriving DecidableEq

/-- Source: `getSuggestedNextDates` — if a latest sprint exists, parse its
einddatum and start the day after; otherwise start from today shifted to the
next Monday when today is a weekend day (Sunday +1, Saturday +2); the end date
is 13 days after the start.  `today` stands for `new Date()` under the UTC
model; `toISOString` on an unparseable stored einddatum would throw. -/
def getSuggestedNextDates (today : CalDate) (st : StoreState) :
    Except String SuggestedDates :=
  match MockStorage.getLatestSprint st with
  | some latest =>
    match parseDate latest.einddatum with
    | none => .error "Invalid time value"
    | some e =>
      let startDate := addDays e 1
      let endDate := addDays startDate 13
      .ok ⟨isoOfDate startDate, isoOfDate endDate⟩
  | none =>
    let day := dayOfWeek today
    let diff : Int := if day == 0 then 1 else if day == 6 then 2 else 0
    let startDate := addDays today diff
    let endDate := addDays startDate 13
    .ok ⟨isoOfDate startDate, isoOfDate endDate⟩

end SprintService

namespace GoalService

/-- Source: `GoalService.create` — validate, check the owning sprint exists,
then persist a goal whose werkelijke_uren/behaald/toelichting/geleerde_lessen
are null and whose two timestamps are the same `now`. -/
def create (genId now : String) (input : CreateGoalInput) (st : StoreState) :
    Except String Goal × StoreState :=
  let validation := validateCreateGoal input
  if !validation.valid then
    (.error ("Validation failed: " ++ String.intercalate ", " validation.errors), st)
  else if !(MockStorage.sprintExists input.sprint_id st) then
    (.error ("Sprint with ID " ++ input.sprint_id ++ " not found"), st)
  else
    let goal : Goal :=
      { id := genId, sprint_id := input.sprint_id, titel := input.titel,
        beschrijving := input.beschrijving, eigenaar := input.eigenaar,
        geschatte_uren := input.geschatte_uren,
        werkelijke_uren := none, behaald := none,
        toelichting := none, geleerde_lessen := none,
        aangemaakt_op := now, gewijzigd_op := now }
    (.ok goal, MockStorage.createGoal goal st)

def getById (id : String) (st : StoreState) : Except String (Option Goal) :=
  if !isValidUUID id then .error "Invalid goal ID format"
  else .ok (MockStorage.getGoalById id st)

def getBySprintId (sid : String) (st : StoreState) : Except String (List Goal) :=
  if !isValidUUID sid then .error "Invalid sprint ID format"
  else .ok (MockStorage.getGoalsBySprintId sid st)

/-- Source: `GoalService.update` — id-shape guard, validation, existence
check, then a partial update always re-stamping `gewijzigd_op`. -/
def update (id now : String) (input : UpdateGoalInput) (st : StoreState) :
    Except String Goal × StoreState :=
  if !isValidUUID id then (.error "Invalid goal ID format", st)
  else
    let validation := validateUpdateGoal input
    if !validation.valid then
      (.error ("Validation failed: " ++ String.intercalate ", " validation.errors), st)
    else
      match MockStorage.getGoalById id st with
      | none => (.error ("Goal with ID " ++ id ++ " not found"), st)
      | some _ =>
        let updates : GoalUpdates :=
          { gewijzigd_op := some now,
            titel := input.titel, beschrijving := input.beschrijving,
            eigenaar := input.eigenaar, geschatte_uren := input.geschatte_uren,
            werkelijke_uren := input.werkelijke_uren, behaald := input.behaald,
            toelichting := input.toelichting, geleerde_lessen := input.geleerde_lessen }
        let st1 := MockStorage.updateGoal id updates st
        match MockStorage.getGoalById id st1 with
        | some g => (.ok g, st1)
        | none => (.error ("Goal with ID " ++ id ++ " not found"), st1)

end GoalService

namespace CriterionService

def getByGoalId (gid : String) (st : StoreState) : Except String (List SuccessCriterion) :=
  if !isValidUUID gid then .error "Invalid goal ID format"
  else .ok (MockStorage.getCriteriaByGoalId gid st)

end CriterionService

/-! The export/import service (export-service.ts).  The TS export types spread
the entity fields and add a nested list; the embedding keeps the entity and
the nested list as two fields of one record. -/

structure GoalWithCriteria where
  goal : Goal
  success_criteria : List SuccessCriterion
  deriving DecidableEq

structure SprintWithGoals where
  sprint : Sprint
  goals : List GoalWithCriteria
  deriving DecidableEq

structure ExportData where
  version : String
  exported_at : String
  sprints : List SprintWithGoals
  deriving DecidableEq

structure ImportResult where
  sprints : Nat
  goals : Nat
  criteria : Nat
  skipped : Nat
  errors : List String
  deriving DecidableEq

namespace ExportService

/-- The tree `exportAll` serializes (its `sprints` field): every sprint in
volgnummer order, its goals in creation order, each goal with its criteria. -/
def exportTree (st : StoreState) : List SprintWithGoals :=
  (MockStorage.getAllSprints st).map (fun s =>
    ⟨s, (MockStorage.getGoalsBySprintId s.id st).map (fun g =>
      ⟨g, MockStorage.getCriteriaByGoalId g.id st⟩)⟩)

/-- Source: `exportAll` — walks every sprint, each goal under it, each
criterion under each goal, through the services (whose id-shape guards throw
on a malformed stored id). -/
def exportAll (ts : String) (st : StoreState) : Except String ExportData := do
  let sprints := MockStorage.getAllSprints st
  let swg ← sprints.mapM (fun s => do
    let goals ← GoalService.getBySprintId s.id st
    let gwc ← goals.mapM (fun g => do
      let crits ← CriterionService.getByGoalId g.id st
      pure (⟨g, crits⟩ : GoalWithCriteria))
    pure (⟨s, gwc⟩ : SprintWithGoals))
  pure ⟨"1.0", ts, swg⟩

/-- Source: `validateCriterionData`.  `voltooid` is a boolean by type, so its
typeof check cannot fail in the model. -/
def validateCriterionData (pfx : String) (c : SuccessCriterion) : List String :=
  (if !isValidUUID c.id then [pfx ++ ".id: must be a valid UUID"] else []) ++
  (if !isValidUUID c.goal_id then [pfx ++ ".goal_id: must be a valid UUID"] else []) ++
  (if c.beschrijving.length == 0 || c.beschrijving.length > 500 then
    [pfx ++ ".beschrijving: must be a string (1-500 chars)"] else [])

/-- The indexed for-loop over a goal's criteria. -/
def validateCriteriaLoop (pfx : String) : Nat → List SuccessCriterion → List String
  | _, [] => []
  | i, c :: rest =>
    validateCriterionData (pfx ++ ".success_criteria[" ++ toString i ++ "]") c ++
    validateCriteriaLoop pfx (i + 1) rest

/-- Source: `validateGoalData`.  behaald, toelichting and geleerde_lessen are
not validated by the source either. -/
def validateGoalData (pfx : String) (g : GoalWithCriteria) : List String :=
  (if !isValidUUID g.goal.id then [pfx ++ ".id: must be a valid UUID"] else []) ++
  (if !isValidUUID g.goal.sprint_id then [pfx ++ ".sprint_id: must be a valid UUID"] else []) ++
  (if g.goal.titel.length == 0 || g.goal.titel.length > 200 then
    [pfx ++ ".titel: must be a string (1-200 chars)"] else []) ++
  (if g.goal.beschrijving.length > 2000 then
    [pfx ++ ".beschrijving: must be a string (max 2000 chars)"] else []) ++
  (if g.goal.eigenaar.length == 0 || g.goal.eigenaar.length > 50 then
    [pfx ++ ".eigenaar: must be a string (1-50 chars)"] else []) ++
  (if g.goal.geschatte_uren < 0 then
    [pfx ++ ".geschatte_uren: must be a non-negative number"]
   else if !isValidHoursPrecision g.goal.geschatte_uren then
    [pfx ++ ".geschatte_uren: must be in 0.25 hour increments"] else []) ++
  (match g.goal.werkelijke_uren with
   | some v =>
     if v < 0 then [pfx ++ ".werkelijke_uren: must be a non-negative number or null"]
     else if !isValidHoursPrecision v then
      [pfx ++ ".werkelijke_uren: must be in 0.25 hour increments"] else []
   | none => []) ++
  (if !isValidDateTime g.goal.aangemaakt_op then
    [pfx ++ ".aangemaakt_op: must be a valid ISO datetime"] else []) ++
  (if !isValidDateTime g.goal.gewijzigd_op then
    [pfx ++ ".gewijzigd_op: must be a valid ISO datetime"] else []) ++
  validateCriteriaLoop pfx 0 g.success_criteria

/-- The indexed for-loop over a sprint's goals. -/
def validateGoalsLoop (pfx : String) : Nat → List GoalWithCriteria → List String
  | _, [] => []
  | i, g :: rest =>
    validateGoalData (pfx ++ ".goals[" ++ toString i ++ "]") g ++
    validateGoalsLoop pfx (i + 1) rest

/-- Source: `validateSprintData`.  Note the volgnummer check is only `< 1`. -/
def validateSprintData (i : Nat) (sd : SprintWithGoals) : List String :=
  let pfx := "Sprint[" ++ toString i ++ "]"
  (if !isValidUUID sd.sprint.id then [pfx ++ ".id: must be a valid UUID"] else []) ++
  (if sd.sprint.volgnummer < 1 then
    [pfx ++ ".volgnummer: must be a positive integer"] else []) ++
  (if !isValidDate sd.sprint.startdatum then
    [pfx ++ ".startdatum: must be a valid date (YYYY-MM-DD)"] else []) ++
  (if !isValidDate sd.sprint.einddatum then
    [pfx ++ ".einddatum: must be a valid date (YYYY-MM-DD)"] else []) ++
  validateGoalsLoop pfx 0 sd.goals

/-- The indexed for-loop over a document's sprints. -/
def validateSprintsLoop : Nat → List SprintWithGoals → List String
  | _, [] => []
  | i, sd :: rest => validateSprintData i sd ++ validateSprintsLoop (i + 1) rest

/-- Source: `validateImportData` — the version-string and sprints-array shape
checks cannot fail in the typed model; all errors across the whole document
are collected before deciding validity. -/
def validateImportData (data : ExportData) : ValidationResult :=
  let errors := validateSprintsLoop 0 data.sprints
  ⟨errors.isEmpty, errors⟩

/-- The per-goal body of the import loop: `storage.createGoal` with the fields
exactly as given, then `storage.createCriterion` for each nested criterion,
counting as it goes. -/
def importOneGoal (gwc : GoalWithCriteria) (acc : ImportResult × StoreState) :
    ImportResult × StoreState :=
  let st1 := MockStorage.createGoal gwc.goal acc.2
  let stats1 := { acc.1 with goals := acc.1.goals + 1 }
  gwc.success_criteria.foldl (fun a c =>
    ({ a.1 with criteria := a.1.criteria + 1 }, MockStorage.createCriterion c a.2))
    (stats1, st1)

/-- The sprint loop of `importData`, over the mock adapter.  The result is the
stats object (mutated in place by the source, hence surviving a throw), the
store state reached, and the thrown error if any. -/
def importLoop (overwrite : Bool) :
    List SprintWithGoals → ImportResult → StoreState →
    ImportResult × StoreState × Option String
  | [], stats, st => (stats, st, none)
  | sd :: rest, stats, st =>
    if !isValidUUID sd.sprint.id then
      (stats, st, some "Invalid sprint ID format")
    else
      match MockStorage.getSprintById sd.sprint.id st with
      | some _ =>
        if overwrite then
          let st1 := (MockStorage.deleteSprint sd.sprint.id st).2
          let st2 := MockStorage.createSprint sd.sprint st1
          let acc := sd.goals.foldl (fun a gwc => importOneGoal gwc a)
            ({ stats with sprints := stats.sprints + 1 }, st2)
          importLoop overwrite rest acc.1 acc.2
        else
          let msg := "Sprint " ++ toString sd.sprint.volgnummer ++
            " already exists (ID: " ++ sd.sprint.id ++ ")"
          let stats1 := { stats with
            skipped := stats.skipped + 1, errors := stats.errors ++ [msg] }
          importLoop overwrite rest stats1 st
      | none =>
        let st1 := MockStorage.createSprint sd.sprint st
        let acc := sd.goals.foldl (fun a gwc => importOneGoal gwc a)
          ({ stats with sprints := stats.sprints + 1 }, st1)
        importLoop overwrite rest acc.1 acc.2

/-- Source: `importData` — deep structural validation first (persisting
nothing when it fails), then the sprint loop inside `storage.transaction`;
the top-level catch records a thrown error as a single `Import failed: …`
message.  The mock adapter's transaction runs the work directly, so the state
the loop reached is kept even on a throw. -/
def importData (doc : ExportData) (overwrite : Bool) (st : StoreState) :
    ImportResult × StoreState :=
  let stats0 : ImportResult := ⟨0, 0, 0, 0, []⟩
  let validationResult := validateImportData doc
  if !validationResult.valid then
    ({ stats0 with errors := validationResult.errors }, st)
  else
    match importLoop overwrite doc.sprints stats0 st with
    | (stats, st', none) => (stats, st')
    | (stats, st', some e) =>
      ({ stats with errors := stats.errors ++ ["Import failed: " ++ e] }, st')

end ExportService

/-! Concrete fixtures used by the claim theorems and witnesses. -/

def uuidA : String := "aaaaaaaa-aaaa-1aaa-8aaa-aaaaaaaaaaaa"

def uuidB : String := "bbbbbbbb-bbbb-1bbb-8bbb-bbbbbbbbbbbb"

def uuidC : String := "cccccccc-cccc-1ccc-8ccc-cccccccccccc"

def uuidD : String := "dddddddd-dddd-1ddd-8ddd-dddddddddddd"

def uuidE : String := "eeeeeeee-eeee-1eee-8eee-eeeeeeeeeeee"

def uuidF : String := "ffffffff-ffff-1fff-8fff-ffffffffffff"

def sprintOne : Sprint := ⟨uuidA, 1, "2026-01-13", "2026-01-26"⟩

/-- A unit of work that persists one sprint and then throws. -/
def createThenThrow : StoreState → Except String Unit × StoreState :=
  fun st => (.error "boom", MockStorage.createSprint sprintOne st)

/-- A sprint update that only moves the end date (before the start date). -/
def badUpdate : UpdateSprintInput := { einddatum := some "2026-01-01" }

def sprintC : Sprint := ⟨uuidC, 2, "2026-01-01", "2026-03-01"⟩

def sprintD : Sprint := ⟨uuidD, 1, "2026-01-05", "2026-03-01"⟩

/-- Two overlapping sprints; the higher volgnummer was inserted first and has
the earlier start date. -/
def overlapStore : StoreState := ⟨[sprintC, sprintD], [], []⟩

def sprintE : Sprint := ⟨uuidE, 1, "2026-01-01", "2026-03-01"⟩

def sprintF : Sprint := ⟨uuidF, 2, "2026-01-02", "2026-03-01"⟩

/-- Two overlapping sprints; the lower volgnummer was inserted first. -/
def overlapStore2 : StoreState := ⟨[sprintE, sprintF], [], []⟩

def goalOne : Goal :=
  { id := uuidB, sprint_id := uuidA, titel := "Ship X", beschrijving := "Ship feature X",
    eigenaar := "Ada", geschatte_uren := mkRat 8 1, werkelijke_uren := none, behaald := none,
    toelichting := none, geleerde_lessen := none,
    aangemaakt_op := "2026-01-13T10:00:00.000Z", gewijzigd_op := "2026-01-13T10:00:00.000Z" }

def critOne : SuccessCriterion := ⟨uuidC, uuidB, "Tests pass", false⟩

/-- A store holding one sprint with one goal with one criterion. -/
def fullStore : StoreState := ⟨[sprintOne], [goalOne], [critOne]⟩

/-- A store with one sprint and nothing else. -/
def baseStore : StoreState := ⟨[sprintOne], [], []⟩

/-- A store holding one sprint and one goal (the state after creating
`goalOne` in `baseStore`). -/
def storeAfterCreate : StoreState := ⟨[sprintOne], [goalOne], []⟩

def createGoalInputOne : CreateGoalInput :=
  ⟨uuidA, "Ship X", "Ship feature X", "Ada", mkRat 8 1⟩

/-- The hours-quantization invariant for one goal: the estimate, and the
actual hours when set, are non-negative quarter-hour multiples. -/
def goalHoursOK (g : Goal) : Prop :=
  isValidHoursPrecision g.geschatte_uren = true ∧
  ∀ v, g.werkelijke_uren = some v → isValidHoursPrecision v = true

/-- The hours-quantization invariant for a store. -/
def hoursInv (st : StoreState) : Prop := ∀ g ∈ st.goals, goalHoursOK g

/-- A goal-creation input with non-quantized hours (8.1). -/
def badHoursInput : CreateGoalInput := ⟨uuidA, "Ship X", "Ship feature X", "Ada", mkRat 81 10⟩

/-- The field shapes `validateCriterionData` accepts for a stored criterion. -/
def criterionOK (c : SuccessCriterion) : Bool :=
  isValidUUID c.id && isValidUUID c.goal_id &&
  !(c.beschrijving.length == 0 || c.beschrijving.length > 500)

/-- The field shapes `validateGoalData` accepts for a stored goal. -/
def goalFieldsOK (g : Goal) : Bool :=
  isValidUUID g.id && isValidUUID g.sprint_id &&
  !(g.titel.length == 0 || g.titel.length > 200) &&
  !(g.beschrijving.length > 2000) &&
  !(g.eigenaar.length == 0 || g.eigenaar.length > 50) &&
  isValidHoursPrecision g.geschatte_uren &&
  (match g.werkelijke_uren with
   | some v => isValidHoursPrecision v
   | none => true) &&
  isValidDateTime g.aangemaakt_op && isValidDateTime g.gewijzigd_op

/-- The field shapes `validateSprintData` accepts for a stored sprint. -/
def sprintFieldsOK (s : Sprint) : Bool :=
  isValidUUID s.id && !(s.volgnummer < 1) &&
  isValidDate s.startdatum && isValidDate s.einddatum

/-- Well-formed store: the representation invariant the services maintain —
per-collection key uniqueness (JS Map keys / primary keys), referential
integrity, and every stored field in the shape the validators enforce at
creation time (and the import validator accepts). -/
def WF (st : StoreState) : Prop :=
  (st.sprints.map (fun s => s.id)).Nodup ∧
  (st.goals.map (fun g => g.id)).Nodup ∧
  (st.criteria.map (fun c => c.id)).Nodup ∧
  (∀ s ∈ st.sprints, sprintFieldsOK s = true) ∧
  (∀ g ∈ st.goals, goalFieldsOK g = true ∧ g.sprint_id ∈ st.sprints.map (fun s => s.id)) ∧
  (∀ c ∈ st.criteria, criterionOK c = true ∧ c.goal_id ∈ st.goals.map (fun g => g.id))

/-- All goals carried by an export document, in document order. -/
def treeGoals (trees : List SprintWithGoals) : List Goal :=
  (trees.map (fun sd => sd.goals.map (fun gwc => gwc.goal))).flatten

/-- All criteria carried by an export document, in document order. -/
def treeCriteria (trees : List SprintWithGoals) : List SuccessCriterion :=
  (trees.map (fun sd => (sd.goals.map (fun gwc => gwc.success_criteria)).flatten)).flatten

/-! Helper lemmas: the JS string order is a total preorder. -/

theorem charListLt_asymm : ∀ {a b : List Char},
    charListLt a b = true → charListLt b a = false
  | [], [], _ => rfl
  | [], _ :: _, _ => rfl
  | _ :: _, [], h => by simp [charListLt] at h
  | a :: as, b :: bs, h => by
    simp only [charListLt] at h ⊢
    by_cases hab : a < b
    · have hba : ¬ b < a := fun hba => absurd (lt_trans hab hba) (lt_irrefl a)
      simp [hab, hba]
    · by_cases hba : b < a
      · simp [hab, hba] at h
      · simp only [hab, hba, if_false] at h ⊢
        exact charListLt_asymm h

theorem charListLt_connex : ∀ (a b : List Char),
    charListLt a b = true ∨ charListLt b a = true ∨ a = b
  | [], [] => Or.inr (Or.inr rfl)
  | [], _ :: _ => Or.inl rfl
  | _ :: _, [] => Or.inr (Or.inl rfl)
  | a :: as, b :: bs => by
    simp only [charListLt]
    by_cases hab : a < b
    · simp [hab]
    · by_cases hba : b < a
      · simp [hab, hba]
      · have hEq : a = b := le_antisymm (not_lt.mp hba) (not_lt.mp hab)
        subst hEq
        simp only [lt_irrefl, if_false]
        rcases charListLt_connex as bs with h | h | h
        · exact Or.inl h
        · exact Or.inr (Or.inl h)
        · exact Or.inr (Or.inr (by simp [h]))

theorem charListLt_trans : ∀ {a b c : List Char},
    charListLt a b = true → charListLt b c = true → charListLt a c = true
  | [], [], _, h, _ => by simp [charListLt] at h
  | [], _ :: _, [], _, h => by simp [charListLt] at h
  | [], _ :: _, _ :: _, _, _ => rfl
  | _ :: _, [], _, h, _ => by simp [charListLt] at h
  | _ :: _, _ :: _, [], _, h => by simp [charListLt] at h
  | a :: as, b :: bs, c :: cs, h1, h2 => by
    simp only [charListLt] at h1 h2 ⊢
    by_cases hab : a < b
    · by_cases hbc : b < c
      · simp [lt_trans hab hbc]
      · by_cases hcb : c < b
        · simp [hbc, hcb] at h2
        · have hbceq : b = c := le_antisymm (not_lt.mp hcb) (not_lt.mp hbc)
          rw [← hbceq]
          simp [hab]
    · by_cases hba : b < a
      · simp [hab, hba] at h1
      · have habeq : a = b := le_antisymm (not_lt.mp hba) (not_lt.mp hab)
        rw [habeq]
        simp only [hab, hba, if_false] at h1
        by_cases hbc : b < c
        · simp [hbc]
        · by_cases hcb : c < b
          · simp [hbc, hcb] at h2
          · simp only [hbc, hcb, if_false] at h2 ⊢
            exact charListLt_trans h1 h2

theorem charListLt_irrefl (a : List Char) : charListLt a a = false := by
  cases h : charListLt a a
  · rfl
  · have := charListLt_asymm h
    rw [h] at this
    exact this

theorem jsStrLe_total (a b : String) : (jsStrLe a b || jsStrLe b a) = true := by
  simp only [jsStrLe, jsStrLt, Bool.or_eq_true, Bool.not_eq_true']
  rcases charListLt_connex a.data b.data with h | h | h
  · exact Or.inl (charListLt_asymm h)
  · exact Or.inr (charListLt_asymm h)
  · left
    rw [h]
    exact charListLt_irrefl _


theorem jsStrLe_trans (a b c : String) (h1 : jsStrLe a b = true)
    (h2 : jsStrLe b c = true) : jsStrLe a c = true := by
  simp only [jsStrLe, jsStrLt, Bool.not_eq_true'] at h1 h2 ⊢
  by_contra hne
  have hca : charListLt c.data a.data = true := by
    cases h : charListLt c.data a.data
    · exact absurd h hne
    · rfl
  rcases charListLt_connex a.data b.data with h | h | h
  · have hcb := charListLt_trans hca h
    rw [hcb] at h2
    exact absurd h2 (by simp)
  · rw [h] at h1
    exact absurd h1 (by simp)
  · rw [← h] at h2
    rw [hca] at h2
    exact absurd h2 (by simp)

/-! General list and order helper lemmas. -/

theorem bool_eq_of_iff {a b : Bool} (h : a = true ↔ b = true) : a = b := by
  cases a <;> cases b <;> simp_all

theorem bool_true_of_not_eq_false {b : Bool} (h : (!b) = false) : b = true := by
  cases b
  · exact absurd h (by simp)
  · rfl

theorem bool_true_of_not_not {b : Bool} (h : ¬ (!b) = true) : b = true := by
  cases b
  · exact absurd (by simp) h
  · rfl

theorem str_beq_comm (a b : String) : (a == b) = (b == a) := by
  apply bool_eq_of_iff
  simp only [beq_iff_eq]
  exact eq_comm

theorem find?_map_replace {α} (key : α → String) (x : α) :
    ∀ (l : List α), l.any (fun y => key y == key x) = true →
      (l.map (fun y => if key y == key x then x else y)).find?
        (fun y => key y == key x) = some x
  | [], h => by simp at h
  | y :: ys, h => by
    rw [List.map_cons]
    by_cases hy : (key y == key x) = true
    · rw [if_pos hy]
      exact List.find?_cons_of_pos _ (beq_self_eq_true (key x))
    · rw [if_neg hy]
      have hyF : (key y == key x) = false := by
        cases hcase : (key y == key x)
        · rfl
        · exact absurd hcase hy
      rw [List.find?_cons, hyF]
      apply find?_map_replace key x ys
      simp only [List.any_cons, Bool.or_eq_true] at h
      rcases h with h | h
      · exact absurd h hy
      · exact h

theorem find?_mapSet {α} (key : α → String) (l : List α) (x : α) :
    (mapSet key l x).find? (fun y => key y == key x) = some x := by
  unfold mapSet
  by_cases h : l.any (fun y => key y == key x) = true
  · rw [if_pos h]
    exact find?_map_replace key x l h
  · rw [if_neg h]
    rw [List.find?_append]
    have hnone : l.find? (fun y => key y == key x) = none := by
      rw [List.find?_eq_none]
      intro y hy hcon
      exact h (List.any_eq_true.mpr ⟨y, hy, hcon⟩)
    rw [hnone]
    simp [List.find?]

theorem sortBy_perm {α} (le : α → α → Bool) (l : List α) : (sortBy le l).Perm l :=
  List.perm_insertionSort _ l

theorem mem_sortBy {α} {le : α → α → Bool} {l : List α} {x : α} :
    x ∈ sortBy le l ↔ x ∈ l :=
  (sortBy_perm le l).mem_iff

theorem sortBy_sorted {α} (le : α → α → Bool)
    (htot : ∀ a b, (le a b || le b a) = true)
    (htrans : ∀ a b c, le a b = true → le b c = true → le a c = true)
    (l : List α) : List.Sorted (fun a b => le a b = true) (sortBy le l) := by
  haveI : IsTotal α (fun a b => le a b = true) :=
    ⟨fun a b => by
      by_cases hab : le a b = true
      · exact Or.inl hab
      · have hor := htot a b
        rw [Bool.not_eq_true] at hab
        rw [hab] at hor
        simp only [Bool.false_or] at hor
        exact Or.inr hor⟩
  haveI : IsTrans α (fun a b => le a b = true) := ⟨fun a b c => htrans a b c⟩
  exact List.sorted_insertionSort _ l

theorem sortBy_eq_self {α} {le : α → α → Bool} {l : List α}
    (h : List.Sorted (fun a b => le a b = true) l) : sortBy le l = l :=
  List.Sorted.insertionSort_eq h

theorem volLe_total (a b : Sprint) : (volLe a b || volLe b a) = true := by
  simp only [volLe, Bool.or_eq_true, decide_eq_true_eq]
  exact Int.le_total a.volgnummer b.volgnummer

theorem volLe_trans (a b c : Sprint) (h1 : volLe a b = true) (h2 : volLe b c = true) :
    volLe a c = true := by
  simp only [volLe, decide_eq_true_eq] at h1 h2 ⊢
  exact le_trans h1 h2

theorem volGe_total (a b : Sprint) : (volGe a b || volGe b a) = true := by
  simp only [volGe, Bool.or_eq_true, decide_eq_true_eq]
  exact Int.le_total b.volgnummer a.volgnummer

theorem volGe_trans (a b c : Sprint) (h1 : volGe a b = true) (h2 : volGe b c = true) :
    volGe a c = true := by
  simp only [volGe, decide_eq_true_eq] at h1 h2 ⊢
  exact le_trans h2 h1

theorem dateLe_total (a b : Goal) : (dateLe a b || dateLe b a) = true :=
  jsStrLe_total a.aangemaakt_op b.aangemaakt_op

theorem dateLe_trans (a b c : Goal) (h1 : dateLe a b = true) (h2 : dateLe b c = true) :
    dateLe a c = true :=
  jsStrLe_trans a.aangemaakt_op b.aangemaakt_op c.aangemaakt_op h1 h2

/-! Characterization of the mock adapter's sprint-cascade loop. -/

theorem cascade_sprints (id : String) : ∀ (gs : List Goal) (st : StoreState),
    (gs.foldl (MockStorage.cascadeStep id) st).sprints = st.sprints
  | [], _ => rfl
  | g :: gs, st => by
    rw [List.foldl_cons, cascade_sprints id gs]
    unfold MockStorage.cascadeStep
    by_cases h : (g.sprint_id == id) = true <;> simp [h]

theorem cascade_criteria (id : String) : ∀ (gs : List Goal) (st : StoreState),
    (gs.foldl (MockStorage.cascadeStep id) st).criteria =
      st.criteria.filter (fun c => !(gs.any (fun g => g.sprint_id == id && g.id == c.goal_id)))
  | [], st => by simp
  | g :: gs, st => by
    rw [List.foldl_cons, cascade_criteria id gs]
    unfold MockStorage.cascadeStep
    by_cases h : (g.sprint_id == id) = true
    · rw [if_pos h]
      simp only [List.filter_filter]
      apply List.filter_congr
      intro c _
      simp only [List.any_cons, h, Bool.true_and, Bool.not_or, bne]
      rw [Bool.and_comm, str_beq_comm c.goal_id g.id]
    · rw [if_neg h]
      apply List.filter_congr
      intro c _
      simp only [List.any_cons]
      rw [Bool.not_eq_true] at h
      rw [h]
      simp

theorem cascade_goals (id : String) : ∀ (gs : List Goal) (st : StoreState),
    (gs.foldl (MockStorage.cascadeStep id) st).goals =
      st.goals.filter (fun x => !(gs.any (fun g => g.sprint_id == id && g.id == x.id)))
  | [], st => by simp
  | g :: gs, st => by
    rw [List.foldl_cons, cascade_goals id gs]
    unfold MockStorage.cascadeStep
    by_cases h : (g.sprint_id == id) = true
    · rw [if_pos h]
      simp only [List.filter_filter]
      apply List.filter_congr
      intro x _
      simp only [List.any_cons, h, Bool.true_and, Bool.not_or, bne]
      rw [Bool.and_comm, str_beq_comm x.id g.id]
    · rw [if_neg h]
      apply List.filter_congr
      intro x _
      simp only [List.any_cons]
      rw [Bool.not_eq_true] at h
      rw [h]
      simp

/-- The components of the mock's `deleteSprint`. -/
theorem mock_deleteSprint_eq (id : String) (st : StoreState) :
    MockStorage.deleteSprint id st =
      (st.sprints.any (fun s => s.id == id),
       { sprints := st.sprints.filter (fun s => s.id != id),
         goals := st.goals.filter
           (fun x => !(st.goals.any (fun g => g.sprint_id == id && g.id == x.id))),
         criteria := st.criteria.filter
           (fun c => !(st.goals.any (fun g => g.sprint_id == id && g.id == c.goal_id))) }) := by
  simp only [MockStorage.deleteSprint, mapDelete, cascade_sprints, cascade_criteria,
    cascade_goals]

/-- C1: the claim demands that every storage adapter's transaction wrapper be
atomic — on a throw inside the unit of work the store must be left exactly as
it was before the transaction began.  The code contradicts this contract: the
mock adapter's transaction just runs the work (no rollback), so a unit of work
that creates a sprint and then throws surfaces the error AND leaves the
sprint persisted; the SQLite wrapper commits its synchronous transaction
before the awaited async work has applied at all.  This theorem evaluates the
mock adapter at the failing input. -/
theorem C1_transaction_not_atomic :
    MockStorage.transaction createThenThrow emptyState =
      (.error "boom", ⟨[sprintOne], [], []⟩) ∧
    (⟨[sprintOne], [], []⟩ : StoreState) ≠ emptyState ∧
    MockStorage.getSprintById uuidA ⟨[sprintOne], [], []⟩ = some sprintOne :=
  ⟨rfl, by decide, by decide⟩

/-- C5 counterexample: on the browser-embedded (Dexie) backend, deleting a
sprint identifier that names no entity returns `true`, not the claimed
`false` (the same holds for its goal and criterion deletes). -/
theorem C5_counterexample :
    emptyState.sprints = [] ∧
    (DexieStorage.deleteSprint uuidA emptyState).1 = true ∧
    (DexieStorage.deleteGoal uuidA emptyState).1 = true ∧
    (DexieStorage.deleteCriterion uuidA emptyState).1 = true := by decide

/-- C6: the end-after-start invariant is not preserved by sprint update.  The
update validator checks only per-field formats (no cross-field comparison),
so updating just the einddatum to a date before the startdatum passes
validation and is persisted: the stored sprint then has einddatum ≤
startdatum, violating the invariant the claim asserts.  (The SQLite schema's
CHECK constraint asserts the same invariant, so on that backend this update
crashes instead of returning normally — the code contradicts its own
schema-level assertion.) -/
theorem C6_update_breaks_date_invariant :
    validateUpdateSprint badUpdate = ⟨true, []⟩ ∧
    SprintService.update uuidA badUpdate ⟨[sprintOne], [], []⟩ =
      (.ok ⟨uuidA, 1, "2026-01-13", "2026-01-01"⟩,
       ⟨[⟨uuidA, 1, "2026-01-13", "2026-01-01"⟩], [], []⟩) ∧
    jsStrLe "2026-01-01" "2026-01-13" = true :=
  ⟨by decide, rfl, by decide⟩

/-- C2 counterexample: the backends do not give identical observable results
from equal states.  On a store holding two overlapping sprints, the same
current-sprint query returns the volgnummer-2 sprint on the relational
backend but the other sprint on the browser backend (which follows its
startdatum index, not the volgnummer order). -/
theorem C2_counterexample :
    SQLiteStorage.getCurrentSprint "2026-02-01" overlapStore = some sprintC ∧
    DexieStorage.getCurrentSprint "2026-02-01" overlapStore = some sprintD ∧
    SQLiteStorage.getCurrentSprint "2026-02-01" overlapStore ≠
      DexieStorage.getCurrentSprint "2026-02-01" overlapStore := by decide

/-- C7 counterexample: on the mock backend the current-sprint query does not
return the highest-volgnummer match: with two qualifying sprints it returns
the first one in insertion order, whose volgnummer (1) is lower than the
other qualifying sprint's (2). -/
theorem C7_counterexample :
    inRange sprintF "2026-02-01" = true ∧
    sprintF ∈ overlapStore2.sprints ∧
    MockStorage.getCurrentSprint "2026-02-01" overlapStore2 = some sprintE ∧
    sprintE.volgnummer < sprintF.volgnummer := by decide

theorem any_key_false {α} (key : α → String) (l : List α) (id : String)
    (h : l.all (fun x => key x != id) = true) :
    l.any (fun x => key x == id) = false := by
  rw [List.any_eq_false]
  intro x hx hbeq
  rw [List.all_eq_true] at h
  have := h x hx
  simp only [bne, hbeq, Bool.not_true] at this
  exact Bool.false_ne_true this

/-- C5 (amended): deleting an identifier that names no existing entity never
throws on any backend (the modelled deletes are total functions), and returns
a no-op result; however the relational and mock backends return `false` while
the browser-embedded backend returns `true` unconditionally. -/
theorem C5_amended_delete_missing_id (st : StoreState) (id : String) :
    (st.sprints.all (fun s => s.id != id) = true →
      (SQLiteStorage.deleteSprint id st).1 = false ∧
      (MockStorage.deleteSprint id st).1 = false ∧
      (DexieStorage.deleteSprint id st).1 = true) ∧
    (st.goals.all (fun g => g.id != id) = true →
      (SQLiteStorage.deleteGoal id st).1 = false ∧
      (MockStorage.deleteGoal id st).1 = false ∧
      (DexieStorage.deleteGoal id st).1 = true) ∧
    (st.criteria.all (fun c => c.id != id) = true →
      (SQLiteStorage.deleteCriterion id st).1 = false ∧
      (MockStorage.deleteCriterion id st).1 = false ∧
      (DexieStorage.deleteCriterion id st).1 = true) := by
  refine ⟨fun h => ⟨?_, ?_, rfl⟩, fun h => ⟨?_, ?_, rfl⟩, fun h => ⟨?_, ?_, rfl⟩⟩
  · exact any_key_false (fun s => s.id) st.sprints id h
  · rw [mock_deleteSprint_eq]
    exact any_key_false (fun s => s.id) st.sprints id h
  · exact any_key_false (fun g => g.id) st.goals id h
  · exact any_key_false (fun g => g.id) st.goals id h
  · exact any_key_false (fun c => c.id) st.criteria id h
  · exact any_key_false (fun c => c.id) st.criteria id h

theorem C5_amended_delete_missing_id_witness :
    ((SQLiteStorage.deleteSprint uuidA emptyState).1 = false ∧
      (MockStorage.deleteSprint uuidA emptyState).1 = false ∧
      (DexieStorage.deleteSprint uuidA emptyState).1 = true) ∧
    ((SQLiteStorage.deleteGoal uuidA emptyState).1 = false ∧
      (MockStorage.deleteGoal uuidA emptyState).1 = false ∧
      (DexieStorage.deleteGoal uuidA emptyState).1 = true) ∧
    ((SQLiteStorage.deleteCriterion uuidA emptyState).1 = false ∧
      (MockStorage.deleteCriterion uuidA emptyState).1 = false ∧
      (DexieStorage.deleteCriterion uuidA emptyState).1 = true) :=
  ⟨(C5_amended_delete_missing_id emptyState uuidA).1 (by decide),
   (C5_amended_delete_missing_id emptyState uuidA).2.1 (by decide),
   (C5_amended_delete_missing_id emptyState uuidA).2.2 (by decide)⟩

/-- C4: deleting a Sprint present in the store makes every Goal that
referenced it, and every Criterion of each such Goal, unreachable via
getById afterwards — on all three backends; likewise a goal deletion makes
the goal's criteria unreachable.  The id-uniqueness hypotheses are the Map
key / primary key representation invariants. -/
theorem C4_cascade_unreachable (st : StoreState) (sid : String)
    (s : Sprint) (hs : s ∈ st.sprints) (hsid : s.id = sid)
    (hNG : (st.goals.map (fun g => g.id)).Nodup)
    (hNC : (st.criteria.map (fun c => c.id)).Nodup)
    (g : Goal) (hg : g ∈ st.goals) (hgs : g.sprint_id = sid)
    (c : SuccessCriterion) (hc : c ∈ st.criteria) (hcg : c.goal_id = g.id) :
    MockStorage.getGoalById g.id (MockStorage.deleteSprint sid st).2 = none ∧
    MockStorage.getCriterionById c.id (MockStorage.deleteSprint sid st).2 = none ∧
    SQLiteStorage.getGoalById g.id (SQLiteStorage.deleteSprint sid st).2 = none ∧
    SQLiteStorage.getCriterionById c.id (SQLiteStorage.deleteSprint sid st).2 = none ∧
    DexieStorage.getGoalById g.id (DexieStorage.deleteSprint sid st).2 = none ∧
    DexieStorage.getCriterionById c.id (DexieStorage.deleteSprint sid st).2 = none ∧
    MockStorage.getCriterionById c.id (MockStorage.deleteGoal g.id st).2 = none ∧
    SQLiteStorage.getCriterionById c.id (SQLiteStorage.deleteGoal g.id st).2 = none ∧
    DexieStorage.getCriterionById c.id (DexieStorage.deleteGoal g.id st).2 = none := by
  have hginj := List.inj_on_of_nodup_map hNG
  have hcinj := List.inj_on_of_nodup_map hNC
  refine ⟨?_, ?_, ?_, ?_, ?_, ?_, ?_, ?_, ?_⟩
  · rw [mock_deleteSprint_eq]
    unfold MockStorage.getGoalById
    rw [List.find?_eq_none]
    intro x hx hbeq
    obtain ⟨hxmem, hcond⟩ := List.mem_filter.mp hx
    rw [beq_iff_eq] at hbeq
    have : st.goals.any (fun g' => g'.sprint_id == sid && g'.id == x.id) = true :=
      List.any_eq_true.mpr ⟨g, hg, by simp [hgs, hbeq]⟩
    rw [this] at hcond
    exact Bool.false_ne_true hcond.symm.symm |>.elim
  · rw [mock_deleteSprint_eq]
    unfold MockStorage.getCriterionById
    rw [List.find?_eq_none]
    intro x hx hbeq
    obtain ⟨hxmem, hcond⟩ := List.mem_filter.mp hx
    rw [beq_iff_eq] at hbeq
    have hxc : x = c := hcinj hxmem hc hbeq
    subst hxc
    have : st.goals.any (fun g' => g'.sprint_id == sid && g'.id == x.goal_id) = true :=
      List.any_eq_true.mpr ⟨g, hg, by simp [hgs, hcg]⟩
    rw [this] at hcond
    exact (Bool.false_ne_true hcond).elim
  · unfold SQLiteStorage.deleteSprint SQLiteStorage.getGoalById
    rw [List.find?_eq_none]
    intro x hx hbeq
    obtain ⟨hxmem, hcond⟩ := List.mem_filter.mp hx
    rw [beq_iff_eq] at hbeq
    have hxg : x = g := hginj hxmem hg hbeq
    subst hxg
    have : (st.sprints.filter (fun s' => s'.id == sid)).any
        (fun s' => s'.id == x.sprint_id) = true := by
      refine List.any_eq_true.mpr ⟨s, List.mem_filter.mpr ⟨hs, by simp [hsid]⟩, ?_⟩
      simp [hsid, hgs]
    rw [this] at hcond
    exact (Bool.false_ne_true hcond).elim
  · unfold SQLiteStorage.deleteSprint SQLiteStorage.getCriterionById
    rw [List.find?_eq_none]
    intro x hx hbeq
    obtain ⟨hxmem, hcond⟩ := List.mem_filter.mp hx
    rw [beq_iff_eq] at hbeq
    have hxc : x = c := hcinj hxmem hc hbeq
    subst hxc
    have : (st.goals.filter (fun g' =>
        (st.sprints.filter (fun s' => s'.id == sid)).any (fun s' => s'.id == g'.sprint_id))).any
        (fun g' => g'.id == x.goal_id) = true := by
      refine List.any_eq_true.mpr ⟨g, List.mem_filter.mpr ⟨hg, ?_⟩, by simp [hcg]⟩
      refine List.any_eq_true.mpr ⟨s, List.mem_filter.mpr ⟨hs, by simp [hsid]⟩, ?_⟩
      simp [hsid, hgs]
    rw [this] at hcond
    exact (Bool.false_ne_true hcond).elim
  · unfold DexieStorage.deleteSprint DexieStorage.getGoalById
    rw [List.find?_eq_none]
    intro x hx hbeq
    obtain ⟨hxmem, hcond⟩ := List.mem_filter.mp hx
    rw [beq_iff_eq] at hbeq
    have hxg : x = g := hginj hxmem hg hbeq
    subst hxg
    simp only [bne, hgs, beq_self_eq_true, Bool.not_true] at hcond
    exact (Bool.false_ne_true hcond).elim
  · unfold DexieStorage.deleteSprint DexieStorage.getCriterionById
    rw [List.find?_eq_none]
    intro x hx hbeq
    have hmemIds : g.id ∈ (st.goals.filter (fun g' => g'.sprint_id == sid)).map
        (fun g' => g'.id) :=
      List.mem_map.mpr ⟨g, List.mem_filter.mpr ⟨hg, by simp [hgs]⟩, rfl⟩
    have hlen : ((st.goals.filter (fun g' => g'.sprint_id == sid)).map
        (fun g' => g'.id)).length > 0 := by
      cases hids : (st.goals.filter (fun g' => g'.sprint_id == sid)).map (fun g' => g'.id) with
      | nil => rw [hids] at hmemIds; simp at hmemIds
      | cons a l => simp [hids]
    simp only [hlen, if_true] at hx
    obtain ⟨hxmem, hcond⟩ := List.mem_filter.mp hx
    rw [beq_iff_eq] at hbeq
    have hxc : x = c := hcinj hxmem hc hbeq
    subst hxc
    have : ((st.goals.filter (fun g' => g'.sprint_id == sid)).map
        (fun g' => g'.id)).contains x.goal_id = true := by
      rw [List.contains_eq_any_beq]
      exact List.any_eq_true.mpr ⟨g.id, hmemIds, by simp [hcg]⟩
    rw [this] at hcond
    exact (Bool.false_ne_true hcond).elim
  · unfold MockStorage.deleteGoal mapDelete MockStorage.getCriterionById
    rw [List.find?_eq_none]
    intro x hx hbeq
    obtain ⟨hxmem, hcond⟩ := List.mem_filter.mp hx
    rw [beq_iff_eq] at hbeq
    have hxc : x = c := hcinj hxmem hc hbeq
    subst hxc
    simp only [bne, hcg, beq_self_eq_true, Bool.not_true] at hcond
    exact (Bool.false_ne_true hcond).elim
  · unfold SQLiteStorage.deleteGoal SQLiteStorage.getCriterionById
    rw [List.find?_eq_none]
    intro x hx hbeq
    obtain ⟨hxmem, hcond⟩ := List.mem_filter.mp hx
    rw [beq_iff_eq] at hbeq
    have hxc : x = c := hcinj hxmem hc hbeq
    subst hxc
    have : (st.goals.filter (fun g' => g'.id == g.id)).any
        (fun g' => g'.id == x.goal_id) = true :=
      List.any_eq_true.mpr ⟨g, List.mem_filter.mpr ⟨hg, by simp⟩, by simp [hcg]⟩
    rw [this] at hcond
    exact (Bool.false_ne_true hcond).elim
  · unfold DexieStorage.deleteGoal DexieStorage.getCriterionById
    rw [List.find?_eq_none]
    intro x hx hbeq
    obtain ⟨hxmem, hcond⟩ := List.mem_filter.mp hx
    rw [beq_iff_eq] at hbeq
    have hxc : x = c := hcinj hxmem hc hbeq
    subst hxc
    simp only [bne, hcg, beq_self_eq_true, Bool.not_true] at hcond
    exact (Bool.false_ne_true hcond).elim

theorem C4_cascade_unreachable_witness :
    MockStorage.getGoalById goalOne.id (MockStorage.deleteSprint uuidA fullStore).2 = none ∧
    MockStorage.getCriterionById critOne.id (MockStorage.deleteSprint uuidA fullStore).2 = none ∧
    SQLiteStorage.getGoalById goalOne.id (SQLiteStorage.deleteSprint uuidA fullStore).2 = none ∧
    SQLiteStorage.getCriterionById critOne.id (SQLiteStorage.deleteSprint uuidA fullStore).2 = none ∧
    DexieStorage.getGoalById goalOne.id (DexieStorage.deleteSprint uuidA fullStore).2 = none ∧
    DexieStorage.getCriterionById critOne.id (DexieStorage.deleteSprint uuidA fullStore).2 = none ∧
    MockStorage.getCriterionById critOne.id (MockStorage.deleteGoal goalOne.id fullStore).2 = none ∧
    SQLiteStorage.getCriterionById critOne.id (SQLiteStorage.deleteGoal goalOne.id fullStore).2 = none ∧
    DexieStorage.getCriterionById critOne.id (DexieStorage.deleteGoal goalOne.id fullStore).2 = none :=
  C4_cascade_unreachable fullStore uuidA sprintOne (by decide) (by decide)
    (by decide) (by decide) goalOne (by decide) (by decide) critOne (by decide) (by decide)

theorem any_congr_mem {α} {p q : α → Bool} {l : List α}
    (h : ∀ x ∈ l, p x = q x) : l.any p = l.any q := by
  apply bool_eq_of_iff
  rw [List.any_eq_true, List.any_eq_true]
  constructor
  · rintro ⟨x, hx, hpx⟩
    exact ⟨x, hx, by rw [← h x hx]; exact hpx⟩
  · rintro ⟨x, hx, hqx⟩
    exact ⟨x, hx, by rw [h x hx]; exact hqx⟩

/-- The primary keys Dexie's sprint cascade collects contain an id exactly
when some goal of the sprint carries it. -/
theorem contains_goalIds (st : StoreState) (sid a : String) :
    ((st.goals.filter (fun g => g.sprint_id == sid)).map (fun g => g.id)).contains a =
      st.goals.any (fun g => g.sprint_id == sid && g.id == a) := by
  apply bool_eq_of_iff
  rw [List.contains_eq_any_beq, List.any_eq_true, List.any_eq_true]
  constructor
  · rintro ⟨y, hy, hbeq⟩
    obtain ⟨g, hgmem, hgid⟩ := List.mem_map.mp hy
    obtain ⟨hgmem', hsp⟩ := List.mem_filter.mp hgmem
    refine ⟨g, hgmem', ?_⟩
    rw [Bool.and_eq_true]
    refine ⟨hsp, ?_⟩
    rw [beq_iff_eq] at hbeq ⊢
    rw [hgid, ← hbeq]
  · rintro ⟨g, hg, hcond⟩
    rw [Bool.and_eq_true] at hcond
    obtain ⟨h1, h2⟩ := hcond
    rw [beq_iff_eq] at h2
    exact ⟨g.id, List.mem_map.mpr ⟨g, List.mem_filter.mpr ⟨hg, h1⟩, rfl⟩,
      by rw [beq_iff_eq, h2]⟩

/-- C2 (amended): the full cross-backend behavioral parity the claim states
does not hold (see the counterexample); what does hold for the cascade delete
is parity of the resulting entity states: under the id-uniqueness and
referential-integrity store invariants, deleting a sprint leaves the three
backends in identical states, and the relational and mock backends also agree
on the returned boolean (the browser backend's boolean differs). -/
theorem C2_amended_delete_parity (st : StoreState) (id : String)
    (hNG : (st.goals.map (fun g => g.id)).Nodup)
    (hRI : ∀ g ∈ st.goals, ∃ s ∈ st.sprints, s.id = g.sprint_id) :
    (MockStorage.deleteSprint id st).2 = (DexieStorage.deleteSprint id st).2 ∧
    (SQLiteStorage.deleteSprint id st).2 = (DexieStorage.deleteSprint id st).2 ∧
    (MockStorage.deleteSprint id st).1 = (SQLiteStorage.deleteSprint id st).1 := by
  have hginj := List.inj_on_of_nodup_map hNG
  have hmockG : ∀ x ∈ st.goals,
      (!(st.goals.any (fun g => g.sprint_id == id && g.id == x.id))) = (x.sprint_id != id) := by
    intro x hx
    simp only [bne]
    congr 1
    apply bool_eq_of_iff
    rw [List.any_eq_true]
    constructor
    · rintro ⟨g, hgmem, hcond⟩
      rw [Bool.and_eq_true] at hcond
      obtain ⟨h1, h2⟩ := hcond
      rw [beq_iff_eq] at h2
      have hgx : g = x := hginj hgmem hx h2
      rw [← hgx]
      exact h1
    · intro hsp
      refine ⟨x, hx, ?_⟩
      rw [Bool.and_eq_true]
      exact ⟨hsp, beq_self_eq_true _⟩
  have hsqlG : ∀ x ∈ st.goals,
      ((st.sprints.filter (fun s => s.id == id)).any (fun s => s.id == x.sprint_id)) =
        (x.sprint_id == id) := by
    intro x hx
    apply bool_eq_of_iff
    rw [List.any_eq_true]
    constructor
    · rintro ⟨s, hsmem, hbeq⟩
      obtain ⟨hsmem', hsid⟩ := List.mem_filter.mp hsmem
      rw [beq_iff_eq] at hbeq hsid ⊢
      rw [← hbeq, hsid]
    · intro hsp
      rw [beq_iff_eq] at hsp
      obtain ⟨s, hsmem, hsid⟩ := hRI x hx
      refine ⟨s, List.mem_filter.mpr ⟨hsmem, ?_⟩, ?_⟩
      · rw [beq_iff_eq, hsid, hsp]
      · rw [beq_iff_eq]
        exact hsid
  have hDexie2 : (DexieStorage.deleteSprint id st).2 =
      ⟨st.sprints.filter (fun s => s.id != id),
       st.goals.filter (fun g => g.sprint_id != id),
       st.criteria.filter
         (fun c => !(st.goals.any (fun g => g.sprint_id == id && g.id == c.goal_id)))⟩ := by
    unfold DexieStorage.deleteSprint
    rw [StoreState.mk.injEq]
    refine ⟨rfl, rfl, ?_⟩
    by_cases hlen : ((st.goals.filter (fun g => g.sprint_id == id)).map
        (fun g => g.id)).length > 0
    · simp only [hlen, if_true]
      apply List.filter_congr
      intro c _
      rw [contains_goalIds]
    · simp only [hlen, if_false]
      symm
      rw [List.filter_eq_self]
      intro c _
      have hnil : st.goals.filter (fun g => g.sprint_id == id) = [] := by
        have hz : ((st.goals.filter (fun g => g.sprint_id == id)).map
            (fun g => g.id)).length = 0 := Nat.eq_zero_of_not_pos hlen
        rw [List.length_eq_zero, List.map_eq_nil_iff] at hz
        exact hz
      have hany : st.goals.any (fun g => g.sprint_id == id && g.id == c.goal_id) = false := by
        rw [List.any_eq_false]
        intro g hgmem hcond
        rw [Bool.and_eq_true] at hcond
        have hmem2 : g ∈ st.goals.filter (fun g => g.sprint_id == id) :=
          List.mem_filter.mpr ⟨hgmem, hcond.1⟩
        rw [hnil] at hmem2
        simp at hmem2
      rw [hany]
      rfl
  have hMock2 : (MockStorage.deleteSprint id st).2 =
      ⟨st.sprints.filter (fun s => s.id != id),
       st.goals.filter (fun g => g.sprint_id != id),
       st.criteria.filter
         (fun c => !(st.goals.any (fun g => g.sprint_id == id && g.id == c.goal_id)))⟩ := by
    rw [mock_deleteSprint_eq]
    rw [StoreState.mk.injEq]
    exact ⟨rfl, List.filter_congr hmockG, rfl⟩
  have hSql2 : (SQLiteStorage.deleteSprint id st).2 =
      ⟨st.sprints.filter (fun s => s.id != id),
       st.goals.filter (fun g => g.sprint_id != id),
       st.criteria.filter
         (fun c => !(st.goals.any (fun g => g.sprint_id == id && g.id == c.goal_id)))⟩ := by
    unfold SQLiteStorage.deleteSprint
    rw [StoreState.mk.injEq]
    refine ⟨rfl, ?_, ?_⟩
    · apply List.filter_congr
      intro x hx
      rw [hsqlG x hx]
      simp [bne]
    · apply List.filter_congr
      intro c _
      congr 1
      rw [List.any_filter]
      apply any_congr_mem
      intro g hg
      rw [hsqlG g hg]
  refine ⟨hMock2.trans hDexie2.symm, hSql2.trans hDexie2.symm, ?_⟩
  rw [mock_deleteSprint_eq]
  rfl

theorem C2_amended_delete_parity_witness :
    (MockStorage.deleteSprint uuidA fullStore).2 = (DexieStorage.deleteSprint uuidA fullStore).2 ∧
    (SQLiteStorage.deleteSprint uuidA fullStore).2 = (DexieStorage.deleteSprint uuidA fullStore).2 ∧
    (MockStorage.deleteSprint uuidA fullStore).1 = (SQLiteStorage.deleteSprint uuidA fullStore).1 :=
  C2_amended_delete_parity fullStore uuidA (by decide) (by decide)

/-- C7 (amended): only the relational backend returns the highest-volgnummer
sprint among those whose range contains the date.  All three backends do
return none exactly when no sprint's range contains the date (in particular
for a date strictly between two non-overlapping sprints); but when several
sprints qualify, the mock returns the first match in insertion order and the
browser backend the last match in its startdatum-index order, so only
membership and range containment hold for them. -/
theorem C7_amended_current_sprint (st : StoreState) (today : String) :
    (SQLiteStorage.getCurrentSprint today st = none ↔
      ∀ s ∈ st.sprints, inRange s today = false) ∧
    (∀ s, SQLiteStorage.getCurrentSprint today st = some s →
      s ∈ st.sprints ∧ inRange s today = true ∧
      ∀ s' ∈ st.sprints, inRange s' today = true → s'.volgnummer ≤ s.volgnummer) ∧
    (MockStorage.getCurrentSprint today st = none ↔
      ∀ s ∈ st.sprints, inRange s today = false) ∧
    (∀ s, MockStorage.getCurrentSprint today st = some s →
      s ∈ st.sprints ∧ inRange s today = true) ∧
    (DexieStorage.getCurrentSprint today st = none ↔
      ∀ s ∈ st.sprints, inRange s today = false) ∧
    (∀ s, DexieStorage.getCurrentSprint today st = some s →
      s ∈ st.sprints ∧ inRange s today = true) := by
  refine ⟨?_, ?_, ?_, ?_, ?_, ?_⟩
  · unfold SQLiteStorage.getCurrentSprint
    rw [List.head?_eq_none_iff]
    constructor
    · intro hnil s hs
      have hperm := sortBy_perm volGe (st.sprints.filter (fun s => inRange s today))
      rw [hnil] at hperm
      have hfil := hperm.nil_eq.symm
      rw [List.filter_eq_nil_iff] at hfil
      cases hcase : inRange s today
      · rfl
      · exact absurd hcase (hfil s hs)
    · intro hall
      have hfil : st.sprints.filter (fun s => inRange s today) = [] := by
        rw [List.filter_eq_nil_iff]
        intro s hs
        rw [hall s hs]
        exact Bool.false_ne_true
      rw [hfil]
      rfl
  · intro s hsome
    unfold SQLiteStorage.getCurrentSprint at hsome
    rw [List.head?_eq_some_iff] at hsome
    obtain ⟨ys, hys⟩ := hsome
    have hmem : s ∈ sortBy volGe (st.sprints.filter (fun s => inRange s today)) := by
      rw [hys]
      exact List.mem_cons_self s ys
    rw [mem_sortBy, List.mem_filter] at hmem
    refine ⟨hmem.1, hmem.2, ?_⟩
    intro s' hs' hr'
    have hsorted := sortBy_sorted volGe volGe_total volGe_trans
      (st.sprints.filter (fun s => inRange s today))
    rw [hys] at hsorted
    have hmem' : s' ∈ sortBy volGe (st.sprints.filter (fun s => inRange s today)) := by
      rw [mem_sortBy, List.mem_filter]
      exact ⟨hs', hr'⟩
    rw [hys] at hmem'
    rcases List.mem_cons.mp hmem' with heq | htail
    · rw [heq]
    · have := List.rel_of_sorted_cons hsorted s' htail
      simpa [volGe] using this
  · unfold MockStorage.getCurrentSprint
    rw [List.find?_eq_none]
    constructor
    · intro hall s hs
      have := hall s hs
      cases hcase : inRange s today
      · rfl
      · exact absurd hcase this
    · intro hall s hs hr
      rw [hall s hs] at hr
      exact Bool.false_ne_true hr
  · intro s hsome
    unfold MockStorage.getCurrentSprint at hsome
    exact ⟨List.mem_of_find?_eq_some hsome, @List.find?_some Sprint (fun s => inRange s today) s st.sprints hsome⟩
  · unfold DexieStorage.getCurrentSprint
    rw [List.getLast?_eq_none_iff, List.filter_filter, List.filter_eq_nil_iff]
    constructor
    · intro hall s hs
      have hm : s ∈ sortBy DexieStorage.startIdLe st.sprints := mem_sortBy.mpr hs
      have := hall s hm
      unfold inRange
      cases h1 : jsStrLe s.startdatum today
      · rfl
      · cases h2 : jsStrLe today s.einddatum
        · rfl
        · exact absurd (by rw [h1, h2]; rfl) this
    · intro hall s hs hcond
      have hmem : s ∈ st.sprints := mem_sortBy.mp hs
      have hr := hall s hmem
      rw [Bool.and_eq_true] at hcond
      unfold inRange at hr
      rw [hcond.2, hcond.1] at hr
      simp at hr
  · intro s hsome
    unfold DexieStorage.getCurrentSprint at hsome
    have hmem := List.mem_of_mem_getLast? (Option.mem_def.mpr hsome)
    rw [List.mem_filter] at hmem
    obtain ⟨hmem1, h2⟩ := hmem
    rw [List.mem_filter] at hmem1
    obtain ⟨hmem0, h1⟩ := hmem1
    rw [mem_sortBy] at hmem0
    refine ⟨hmem0, ?_⟩
    unfold inRange
    rw [h1, h2]
    rfl

theorem C7_amended_current_sprint_witness :
    sprintF ∈ overlapStore2.sprints ∧ inRange sprintF "2026-02-01" = true :=
  ⟨(((C7_amended_current_sprint overlapStore2 "2026-02-01").2.1 sprintF (by decide))).1,
   (((C7_amended_current_sprint overlapStore2 "2026-02-01").2.1 sprintF (by decide))).2.1⟩

/-- C10: for every goal-creation input the goal service accepts, the returned
goal has werkelijke_uren, behaald, toelichting and geleerde_lessen all unset,
its creation timestamp equal to its modification timestamp, and it is
subsequently readable via getById.  (The input type carries exactly the five
creation fields, so extra input fields cannot reach the stored goal.) -/
theorem C10_goal_create_defaults (genId now : String) (input : CreateGoalInput)
    (st : StoreState) (g : Goal) (st' : StoreState)
    (h : GoalService.create genId now input st = (.ok g, st'))
    (hUUID : isValidUUID genId = true) :
    g.werkelijke_uren = none ∧ g.behaald = none ∧ g.toelichting = none ∧
    g.geleerde_lessen = none ∧ g.aangemaakt_op = g.gewijzigd_op ∧
    GoalService.getById genId st' = .ok (some g) := by
  simp only [GoalService.create] at h
  split at h
  · rw [Prod.mk.injEq] at h
    exact absurd h.1 (by simp)
  · split at h
    · rw [Prod.mk.injEq] at h
      exact absurd h.1 (by simp)
    · rw [Prod.mk.injEq] at h
      obtain ⟨h1, h2⟩ := h
      rw [Except.ok.injEq] at h1
      subst h1
      subst h2
      refine ⟨rfl, rfl, rfl, rfl, rfl, ?_⟩
      unfold GoalService.getById
      have hcond : (!isValidUUID genId) = false := by rw [hUUID]; rfl
      rw [hcond]
      simp only [Bool.false_eq_true, if_false]
      unfold MockStorage.getGoalById MockStorage.createGoal
      exact congrArg Except.ok (find?_mapSet (fun g => g.id) st.goals
        ⟨genId, input.sprint_id, input.titel, input.beschrijving, input.eigenaar,
         input.geschatte_uren, none, none, none, none, now, now⟩)

theorem C10_goal_create_defaults_witness :
    goalOne.werkelijke_uren = none ∧ goalOne.behaald = none ∧ goalOne.toelichting = none ∧
    goalOne.geleerde_lessen = none ∧ goalOne.aangemaakt_op = goalOne.gewijzigd_op ∧
    GoalService.getById uuidB storeAfterCreate = .ok (some goalOne) :=
  C10_goal_create_defaults uuidB "2026-01-13T10:00:00.000Z" createGoalInputOne baseStore
    goalOne storeAfterCreate rfl (by decide)

/-- C9: the suggested dates for a new sprint.  Whatever the service returns,
the end date is the ISO form of the start date plus 13 days (a 14-day
inclusive span); with a latest sprint the start is the day after its parsed
end date, and with no sprints the start is today shifted to Monday when
today is a weekend day (Sunday +1, Saturday +2, weekdays stay).  The
concrete instances check the spec's examples: called on a Wednesday with no
sprints it returns that Wednesday, on a Sunday/Saturday the following
Monday; called after a sprint ending 2026-01-26 it returns start 2026-01-27
and end 2026-02-09. -/
theorem C9_suggested_dates (today : CalDate) (st : StoreState) :
    (∀ sug, SprintService.getSuggestedNextDates today st = .ok sug →
      ∃ start : CalDate,
        sug.startdatum = isoOfDate start ∧
        sug.einddatum = isoOfDate (addDays start 13) ∧
        (MockStorage.getLatestSprint st = none →
          start = addDays today
            (if dayOfWeek today == 0 then 1 else if dayOfWeek today == 6 then 2 else 0)) ∧
        (∀ latest, MockStorage.getLatestSprint st = some latest →
          ∃ e, parseDate latest.einddatum = some e ∧ start = addDays e 1)) ∧
    SprintService.getSuggestedNextDates ⟨2026, 1, 7⟩ emptyState =
      .ok ⟨"2026-01-07", "2026-01-20"⟩ ∧
    dayOfWeek ⟨2026, 1, 7⟩ = 3 ∧
    SprintService.getSuggestedNextDates ⟨2026, 1, 4⟩ emptyState =
      .ok ⟨"2026-01-05", "2026-01-18"⟩ ∧
    dayOfWeek ⟨2026, 1, 4⟩ = 0 ∧
    SprintService.getSuggestedNextDates ⟨2026, 1, 3⟩ emptyState =
      .ok ⟨"2026-01-05", "2026-01-18"⟩ ∧
    dayOfWeek ⟨2026, 1, 3⟩ = 6 ∧
    SprintService.getSuggestedNextDates ⟨2026, 2, 1⟩ baseStore =
      .ok ⟨"2026-01-27", "2026-02-09"⟩ := by
  refine ⟨?_, rfl, by decide, rfl, by decide, rfl, by decide, rfl⟩
  intro sug heq
  unfold SprintService.getSuggestedNextDates at heq
  split at heq
  · rename_i latest hlatest
    split at heq
    · exact Except.noConfusion heq
    · rename_i e hparse
      simp only [Except.ok.injEq] at heq
      refine ⟨addDays e 1, ?_, ?_, ?_, ?_⟩
      · rw [← heq]
      · rw [← heq]
      · intro hnone
        rw [hlatest] at hnone
        exact Option.noConfusion hnone
      · intro latest' hl
        rw [hlatest, Option.some.injEq] at hl
        subst hl
        exact ⟨e, hparse, rfl⟩
  · rename_i hlatest
    simp only [Except.ok.injEq] at heq
    refine ⟨addDays today
      (if dayOfWeek today == 0 then 1 else if dayOfWeek today == 6 then 2 else 0), ?_, ?_, ?_, ?_⟩
    · rw [← heq]
    · rw [← heq]
    · intro _
      rfl
    · intro latest hl
      rw [hlatest] at hl
      exact Option.noConfusion hl

theorem C9_suggested_dates_witness :
    SprintService.getSuggestedNextDates ⟨2026, 2, 1⟩ baseStore =
      .ok ⟨"2026-01-27", "2026-02-09"⟩ :=
  (C9_suggested_dates ⟨2026, 2, 1⟩ baseStore).2.2.2.2.2.2.2

/-! Lemmas for the hours-quantization claim. -/

theorem isEmpty_false_of_ne_nil {l : List String} (h : l ≠ []) : l.isEmpty = false := by
  cases l
  · exact absurd rfl h
  · rfl

theorem append_ne_nil_right {l1 l2 : List String} (h : l2 ≠ []) : l1 ++ l2 ≠ [] := by
  intro hc
  rw [List.append_eq_nil] at hc
  exact h hc.2

theorem hours_chain_prec {q : Rat} {m1 m2 : List String} (hm1 : m1 ≠ []) (hm2 : m2 ≠ [])
    (h : (if q < 0 then m1 else if !isValidHoursPrecision q then m2 else []) = []) :
    isValidHoursPrecision q = true := by
  by_cases hneg : q < 0
  · rw [if_pos hneg] at h
    exact absurd h hm1
  · rw [if_neg hneg] at h
    cases hp : isValidHoursPrecision q
    · rw [hp] at h
      simp only [Bool.not_false, if_true] at h
      exact absurd h hm2
    · rfl

theorem hours_chain_ne_nil {q : Rat} {m1 m2 : List String} (hm1 : m1 ≠ []) (hm2 : m2 ≠ [])
    (h : isValidHoursPrecision q = false) :
    (if q < 0 then m1 else if !isValidHoursPrecision q then m2 else []) ≠ [] := by
  by_cases hneg : q < 0
  · rw [if_pos hneg]
    exact hm1
  · rw [if_neg hneg, h]
    simp only [Bool.not_false, if_true]
    exact hm2

theorem validateCreateGoal_invalid_of_bad_hours (input : CreateGoalInput)
    (h : isValidHoursPrecision input.geschatte_uren = false) :
    (validateCreateGoal input).valid = false := by
  unfold validateCreateGoal
  apply isEmpty_false_of_ne_nil
  apply append_ne_nil_right
  exact hours_chain_ne_nil (by simp) (by simp) h

theorem validateCreateGoal_valid_hours (input : CreateGoalInput)
    (h : (validateCreateGoal input).valid = true) :
    isValidHoursPrecision input.geschatte_uren = true := by
  unfold validateCreateGoal at h
  rw [List.isEmpty_iff] at h
  simp only [List.append_eq_nil] at h
  exact hours_chain_prec (by simp) (by simp) h.2

theorem validateUpdateGoal_invalid_of_bad_geschatte (input : UpdateGoalInput) (q : Rat)
    (hq : input.geschatte_uren = some q) (h : isValidHoursPrecision q = false) :
    (validateUpdateGoal input).valid = false := by
  unfold validateUpdateGoal
  apply isEmpty_false_of_ne_nil
  intro hc
  simp only [List.append_eq_nil] at hc
  have h4 := hc.1.1.1.2
  rw [hq] at h4
  exact hours_chain_ne_nil (by simp) (by simp) h h4

theorem validateUpdateGoal_invalid_of_bad_werkelijke (input : UpdateGoalInput) (v : Rat)
    (hv : input.werkelijke_uren = some (some v)) (h : isValidHoursPrecision v = false) :
    (validateUpdateGoal input).valid = false := by
  unfold validateUpdateGoal
  apply isEmpty_false_of_ne_nil
  intro hc
  simp only [List.append_eq_nil] at hc
  have h5 := hc.1.1.2
  rw [hv] at h5
  exact hours_chain_ne_nil (by simp) (by simp) h h5

theorem validateUpdateGoal_valid_hours (input : UpdateGoalInput)
    (h : (validateUpdateGoal input).valid = true) :
    (∀ q, input.geschatte_uren = some q → isValidHoursPrecision q = true) ∧
    (∀ v, input.werkelijke_uren = some (some v) → isValidHoursPrecision v = true) := by
  unfold validateUpdateGoal at h
  rw [List.isEmpty_iff] at h
  simp only [List.append_eq_nil] at h
  constructor
  · intro q hq
    have h4 := h.1.1.1.2
    rw [hq] at h4
    exact hours_chain_prec (by simp) (by simp) h4
  · intro v hv
    have h5 := h.1.1.2
    rw [hv] at h5
    exact hours_chain_prec (by simp) (by simp) h5

theorem mem_mapSet {α} {key : α → String} {l : List α} {x y : α}
    (h : y ∈ mapSet key l x) : y = x ∨ y ∈ l := by
  unfold mapSet at h
  by_cases hc : l.any (fun z => key z == key x) = true
  · rw [if_pos hc] at h
    obtain ⟨a, ha, hfa⟩ := List.mem_map.mp h
    by_cases hk : (key a == key x) = true
    · rw [if_pos hk] at hfa
      exact Or.inl hfa.symm
    · rw [if_neg hk] at hfa
      right
      rw [← hfa]
      exact ha
  · rw [if_neg hc] at h
    rcases List.mem_append.mp h with h | h
    · exact Or.inr h
    · left
      simpa using h

theorem validateGoalData_hoursOK (pfx : String) (g : GoalWithCriteria)
    (h : ExportService.validateGoalData pfx g = []) : goalHoursOK g.goal := by
  unfold ExportService.validateGoalData at h
  simp only [List.append_eq_nil] at h
  constructor
  · exact hours_chain_prec (by simp) (by simp) h.1.1.1.1.2
  · intro v hv
    have h7 := h.1.1.1.2
    rw [hv] at h7
    exact hours_chain_prec (by simp) (by simp) h7

theorem validateGoalsLoop_nil (pfx : String) : ∀ (i : Nat) (gs : List GoalWithCriteria),
    ExportService.validateGoalsLoop pfx i gs = [] → ∀ g ∈ gs, goalHoursOK g.goal
  | _, [], _, g, hg => absurd hg (List.not_mem_nil g)
  | i, gwc :: rest, h, g, hg => by
    unfold ExportService.validateGoalsLoop at h
    rw [List.append_eq_nil] at h
    rcases List.mem_cons.mp hg with heq | hmem
    · rw [heq]
      exact validateGoalData_hoursOK _ gwc h.1
    · exact validateGoalsLoop_nil pfx (i + 1) rest h.2 g hmem

theorem validateSprintData_goals_nil (i : Nat) (sd : SprintWithGoals)
    (h : ExportService.validateSprintData i sd = []) :
    ExportService.validateGoalsLoop ("Sprint[" ++ toString i ++ "]") 0 sd.goals = [] := by
  unfold ExportService.validateSprintData at h
  simp only [List.append_eq_nil] at h
  exact h.2

theorem validateSprintsLoop_nil : ∀ (i : Nat) (l : List SprintWithGoals),
    ExportService.validateSprintsLoop i l = [] → ∀ sd ∈ l, ∀ g ∈ sd.goals, goalHoursOK g.goal
  | _, [], _, sd, hsd => absurd hsd (List.not_mem_nil sd)
  | i, sd0 :: rest, h, sd, hsd => by
    unfold ExportService.validateSprintsLoop at h
    rw [List.append_eq_nil] at h
    rcases List.mem_cons.mp hsd with heq | hmem
    · rw [heq]
      exact validateGoalsLoop_nil _ 0 sd0.goals (validateSprintData_goals_nil i sd0 h.1)
    · exact validateSprintsLoop_nil (i + 1) rest h.2 sd hmem

theorem validateImportData_hoursOK (doc : ExportData)
    (h : (ExportService.validateImportData doc).valid = true) :
    ∀ sd ∈ doc.sprints, ∀ g ∈ sd.goals, goalHoursOK g.goal := by
  unfold ExportService.validateImportData at h
  rw [List.isEmpty_iff] at h
  exact validateSprintsLoop_nil 0 doc.sprints h

theorem critFold_goals : ∀ (cs : List SuccessCriterion) (a : ImportResult × StoreState),
    ((cs.foldl (fun a c =>
      ({ a.1 with criteria := a.1.criteria + 1 }, MockStorage.createCriterion c a.2)) a).2).goals =
      a.2.goals
  | [], _ => rfl
  | c :: cs, a => by
    rw [List.foldl_cons, critFold_goals cs]
    rfl

theorem importOneGoal_goals (gwc : GoalWithCriteria) (acc : ImportResult × StoreState) :
    ((ExportService.importOneGoal gwc acc).2).goals =
      mapSet (fun g => g.id) acc.2.goals gwc.goal := by
  unfold ExportService.importOneGoal
  rw [critFold_goals]
  rfl

theorem goalsFold_hoursInv : ∀ (gs : List GoalWithCriteria) (acc : ImportResult × StoreState),
    hoursInv acc.2 → (∀ gwc ∈ gs, goalHoursOK gwc.goal) →
    hoursInv ((gs.foldl (fun a gwc => ExportService.importOneGoal gwc a) acc).2)
  | [], _, hinv, _ => hinv
  | gwc :: gs, acc, hinv, hOK => by
    rw [List.foldl_cons]
    apply goalsFold_hoursInv gs
    · intro g hg
      rw [importOneGoal_goals] at hg
      rcases mem_mapSet hg with heq | hmem
      · rw [heq]
        exact hOK gwc (List.mem_cons_self gwc gs)
      · exact hinv g hmem
    · intro x hx
      exact hOK x (List.mem_cons_of_mem _ hx)

theorem deleteSprint_hoursInv (id : String) (st : StoreState) (h : hoursInv st) :
    hoursInv (MockStorage.deleteSprint id st).2 := by
  rw [mock_deleteSprint_eq]
  intro g hg
  exact h g (List.mem_filter.mp hg).1

theorem importLoop_hoursInv (ow : Bool) : ∀ (trees : List SprintWithGoals)
    (stats : ImportResult) (st : StoreState), hoursInv st →
    (∀ sd ∈ trees, ∀ gwc ∈ sd.goals, goalHoursOK gwc.goal) →
    hoursInv (ExportService.importLoop ow trees stats st).2.1
  | [], _, _, hinv, _ => hinv
  | sd :: rest, stats, st, hinv, hOK => by
    unfold ExportService.importLoop
    split
    · exact hinv
    · split
      · split
        · apply importLoop_hoursInv ow rest
          · apply goalsFold_hoursInv sd.goals
            · intro g hg
              exact deleteSprint_hoursInv sd.sprint.id st hinv g hg
            · exact hOK sd (List.mem_cons_self sd rest)
          · intro x hx
            exact hOK x (List.mem_cons_of_mem _ hx)
        · apply importLoop_hoursInv ow rest
          · exact hinv
          · intro x hx
            exact hOK x (List.mem_cons_of_mem _ hx)
      · apply importLoop_hoursInv ow rest
        · apply goalsFold_hoursInv sd.goals
          · intro g hg
            exact hinv g hg
          · exact hOK sd (List.mem_cons_self sd rest)
        · intro x hx
          exact hOK x (List.mem_cons_of_mem _ hx)

/-- C8: the hours-quantization invariant.  The empty store satisfies it;
every create/update input whose hours violate the quarter-step quantization
is rejected by the goal service with the store untouched; the goal service's
create and update, and the import operation, preserve the invariant; and a
document passing import validation has only quantized hour values. -/
theorem C8_hours_quantization :
    hoursInv emptyState ∧
    (∀ genId now input st, isValidHoursPrecision input.geschatte_uren = false →
      (GoalService.create genId now input st).1.isOk = false ∧
      (GoalService.create genId now input st).2 = st) ∧
    (∀ id now input st q, input.geschatte_uren = some q →
      isValidHoursPrecision q = false →
      (GoalService.update id now input st).1.isOk = false ∧
      (GoalService.update id now input st).2 = st) ∧
    (∀ id now input st v, input.werkelijke_uren = some (some v) →
      isValidHoursPrecision v = false →
      (GoalService.update id now input st).1.isOk = false ∧
      (GoalService.update id now input st).2 = st) ∧
    (∀ genId now input st, hoursInv st → hoursInv (GoalService.create genId now input st).2) ∧
    (∀ id now input st, hoursInv st → hoursInv (GoalService.update id now input st).2) ∧
    (∀ doc ow st, hoursInv st → hoursInv (ExportService.importData doc ow st).2) ∧
    (∀ doc, (ExportService.validateImportData doc).valid = true →
      ∀ sd ∈ doc.sprints, ∀ g ∈ sd.goals, goalHoursOK g.goal) := by
  refine ⟨?_, ?_, ?_, ?_, ?_, ?_, ?_, validateImportData_hoursOK⟩
  · intro g hg
    exact absurd hg (List.not_mem_nil g)
  · intro genId now input st hbad
    have hval := validateCreateGoal_invalid_of_bad_hours input hbad
    simp only [GoalService.create, hval]
    exact ⟨rfl, rfl⟩
  · intro id now input st q hq hbad
    have hval := validateUpdateGoal_invalid_of_bad_geschatte input q hq hbad
    simp only [GoalService.update, hval]
    by_cases hUUID : (!isValidUUID id) = true
    · rw [if_pos hUUID]
      exact ⟨rfl, rfl⟩
    · rw [if_neg hUUID]
      exact ⟨rfl, rfl⟩
  · intro id now input st v hv hbad
    have hval := validateUpdateGoal_invalid_of_bad_werkelijke input v hv hbad
    simp only [GoalService.update, hval]
    by_cases hUUID : (!isValidUUID id) = true
    · rw [if_pos hUUID]
      exact ⟨rfl, rfl⟩
    · rw [if_neg hUUID]
      exact ⟨rfl, rfl⟩
  · intro genId now input st hinv
    simp only [GoalService.create]
    split
    · exact hinv
    · split
      · exact hinv
      · rename_i hval hex
        intro g hg
        rcases mem_mapSet hg with heq | hmem
        · rw [heq]
          constructor
          · exact validateCreateGoal_valid_hours input (bool_true_of_not_not hval)
          · intro v hv
            exact Option.noConfusion hv
        · exact hinv g hmem
  · intro id now input st hinv
    simp only [GoalService.update]
    split
    · exact hinv
    · split
      · exact hinv
      · split
        · exact hinv
        · rename_i hUUIDn hvaln hopt hex hfind
          have hvalock := validateUpdateGoal_valid_hours input (bool_true_of_not_not hvaln)
          have hstep : hoursInv (MockStorage.updateGoal id
              { gewijzigd_op := some now,
                titel := input.titel, beschrijving := input.beschrijving,
                eigenaar := input.eigenaar, geschatte_uren := input.geschatte_uren,
                werkelijke_uren := input.werkelijke_uren, behaald := input.behaald,
                toelichting := input.toelichting, geleerde_lessen := input.geleerde_lessen } st) := by
            unfold MockStorage.updateGoal
            cases hf : st.goals.find? (fun g => g.id == id) with
            | none => exact hinv
            | some ex =>
              intro g hg
              rcases mem_mapSet hg with heq | hmem
              · rw [heq]
                have hexmem : ex ∈ st.goals := List.mem_of_find?_eq_some hf
                have hexOK := hinv ex hexmem
                constructor
                · unfold applyGoalUpdates
                  cases hgu : input.geschatte_uren with
                  | none =>
                    simp only [hgu, Option.getD_none]
                    exact hexOK.1
                  | some q =>
                    simp only [hgu, Option.getD_some]
                    exact hvalock.1 q hgu
                · intro v hv
                  unfold applyGoalUpdates at hv
                  cases hwu : input.werkelijke_uren with
                  | none =>
                    simp only [hwu, Option.getD_none] at hv
                    exact hexOK.2 v hv
                  | some w =>
                    simp only [hwu, Option.getD_some] at hv
                    rw [hv] at hwu
                    exact hvalock.2 v hwu
              · exact hinv g hmem
          split
          · exact hstep
          · exact hstep
  · intro doc ow st hinv
    simp only [ExportService.importData]
    split
    · exact hinv
    · rename_i hval
      have hOK : ∀ sd ∈ doc.sprints, ∀ gwc ∈ sd.goals, goalHoursOK gwc.goal := by
        exact validateImportData_hoursOK doc (bool_true_of_not_not hval)
      split
      · rename_i stats st' hloop
        have := importLoop_hoursInv ow doc.sprints ⟨0, 0, 0, 0, []⟩ st hinv hOK
        rw [hloop] at this
        exact this
      · rename_i stats st' e hloop
        have := importLoop_hoursInv ow doc.sprints ⟨0, 0, 0, 0, []⟩ st hinv hOK
        rw [hloop] at this
        exact this

theorem C8_hours_quantization_witness :
    (GoalService.create uuidB "2026-01-13T10:00:00.000Z" badHoursInput baseStore).1.isOk = false ∧
    (GoalService.create uuidB "2026-01-13T10:00:00.000Z" badHoursInput baseStore).2 = baseStore :=
  C8_hours_quantization.2.1 uuidB "2026-01-13T10:00:00.000Z" badHoursInput baseStore (by decide)

/-! Round-trip machinery: freshness, validation success, and the fiber
partition of a collection along its foreign keys. -/

theorem bool_false_of_not_true {b : Bool} (h : (!b) = true) : b = false := by
  cases b
  · rfl
  · exact absurd h (by simp)

theorem mapSet_fresh {α} (key : α → String) (l : List α) (x : α)
    (h : ¬ key x ∈ l.map key) : mapSet key l x = l ++ [x] := by
  have hany : l.any (fun y => key y == key x) = false := by
    rw [List.any_eq_false]
    intro y hy
    simp only [beq_iff_eq]
    intro hk
    exact h (hk ▸ List.mem_map_of_mem key hy)
  simp [mapSet, hany]

theorem find?_beq_none {α} (key : α → String) (l : List α) (id : String)
    (h : ¬ id ∈ l.map key) : l.find? (fun x => key x == id) = none := by
  rw [List.find?_eq_none]
  intro x hx
  simp only [beq_iff_eq]
  intro hk
  exact h (hk ▸ List.mem_map_of_mem key hx)

theorem not_mem_left_of_nodup_append {α} {A B : List α} {a : α}
    (h : (A ++ a :: B).Nodup) : ¬ a ∈ A := by
  intro ha
  exact (List.nodup_append.mp h).2.2 ha (List.mem_cons_self a B)

theorem validateCriterionData_nil (pfx : String) (c : SuccessCriterion)
    (h : criterionOK c = true) : ExportService.validateCriterionData pfx c = [] := by
  simp only [criterionOK, Bool.and_eq_true] at h
  obtain ⟨⟨h1, h2⟩, h3⟩ := h
  have h3' := bool_false_of_not_true h3
  simp [ExportService.validateCriterionData, h1, h2, h3']

theorem validateCriteriaLoop_nil_of (pfx : String) :
    ∀ (i : Nat) (cs : List SuccessCriterion), (∀ c ∈ cs, criterionOK c = true) →
    ExportService.validateCriteriaLoop pfx i cs = []
  | _, [], _ => rfl
  | i, c :: rest, h => by
    simp only [ExportService.validateCriteriaLoop]
    rw [validateCriterionData_nil _ c (h c (List.mem_cons_self c rest)),
      validateCriteriaLoop_nil_of pfx (i + 1) rest
        (fun x hx => h x (List.mem_cons_of_mem _ hx))]
    rfl

theorem validateGoalData_nil (pfx : String) (g : GoalWithCriteria)
    (hg : goalFieldsOK g.goal = true)
    (hc : ∀ c ∈ g.success_criteria, criterionOK c = true) :
    ExportService.validateGoalData pfx g = [] := by
  obtain ⟨⟨gid, gsid, gt, gb, ge, gg, gw, gbh, gtl, ggl, gao, ggo⟩, crits⟩ := g
  have hcl := validateCriteriaLoop_nil_of pfx 0 crits hc
  simp only [goalFieldsOK, Bool.and_eq_true] at hg
  obtain ⟨⟨⟨⟨⟨⟨⟨⟨h1, h2⟩, h3⟩, h4⟩, h5⟩, h6⟩, h7⟩, h8⟩, h9⟩ := hg
  have h3' := bool_false_of_not_true h3
  have h4' := bool_false_of_not_true h4
  have h5' := bool_false_of_not_true h5
  have hq : ¬ (gg < 0) := by
    simp only [isValidHoursPrecision, Bool.and_eq_true, decide_eq_true_eq] at h6
    exact not_lt.mpr (Rat.num_nonneg.mp h6.1)
  have h4p : gb.length ≤ 2000 := by simpa using h4'
  cases gw with
  | none =>
    simp [ExportService.validateGoalData, h1, h2, h3', h4', h5', h6, h8, h9, hq, h4p, hcl]
  | some v =>
    have h7' : isValidHoursPrecision v = true := h7
    have hv : ¬ (v < 0) := by
      simp only [isValidHoursPrecision, Bool.and_eq_true, decide_eq_true_eq] at h7'
      exact not_lt.mpr (Rat.num_nonneg.mp h7'.1)
    have h7'' : isValidHoursPrecision v = true := h7
    simp [ExportService.validateGoalData, h1, h2, h3', h4', h5', h6, h7'', h8, h9, hq, hv, h4p, hcl]

theorem validateGoalsLoop_nil_of (pfx : String) :
    ∀ (i : Nat) (gs : List GoalWithCriteria),
    (∀ g ∈ gs, goalFieldsOK g.goal = true ∧ ∀ c ∈ g.success_criteria, criterionOK c = true) →
    ExportService.validateGoalsLoop pfx i gs = []
  | _, [], _ => rfl
  | i, g :: rest, h => by
    simp only [ExportService.validateGoalsLoop]
    rw [validateGoalData_nil _ g (h g (List.mem_cons_self g rest)).1
        (h g (List.mem_cons_self g rest)).2,
      validateGoalsLoop_nil_of pfx (i + 1) rest
        (fun x hx => h x (List.mem_cons_of_mem _ hx))]
    rfl

theorem validateSprintData_nil (i : Nat) (sd : SprintWithGoals)
    (hs : sprintFieldsOK sd.sprint = true)
    (hg : ∀ g ∈ sd.goals, goalFieldsOK g.goal = true ∧
      ∀ c ∈ g.success_criteria, criterionOK c = true) :
    ExportService.validateSprintData i sd = [] := by
  simp only [sprintFieldsOK, Bool.and_eq_true] at hs
  obtain ⟨⟨⟨h1, h2⟩, h3⟩, h4⟩ := hs
  have h2' : ¬ (sd.sprint.volgnummer < 1) := by
    have := bool_false_of_not_true h2
    simpa using this
  simp [ExportService.validateSprintData, h1, h2', h3, h4,
    validateGoalsLoop_nil_of _ 0 sd.goals hg]

theorem validateSprintsLoop_nil_of :
    ∀ (i : Nat) (trees : List SprintWithGoals),
    (∀ sd ∈ trees, sprintFieldsOK sd.sprint = true ∧
      ∀ g ∈ sd.goals, goalFieldsOK g.goal = true ∧
        ∀ c ∈ g.success_criteria, criterionOK c = true) →
    ExportService.validateSprintsLoop i trees = []
  | _, [], _ => rfl
  | i, sd :: rest, h => by
    simp only [ExportService.validateSprintsLoop]
    rw [validateSprintData_nil i sd (h sd (List.mem_cons_self sd rest)).1
        (h sd (List.mem_cons_self sd rest)).2,
      validateSprintsLoop_nil_of (i + 1) rest
        (fun x hx => h x (List.mem_cons_of_mem _ hx))]
    rfl

theorem except_bind_ok {α β : Type} (a : α) (f : α → Except String β) :
    ((Except.ok a : Except String α) >>= f) = f a := rfl

theorem mapM'_ok {α β : Type} (f : α → Except String β) (g : α → β) :
    ∀ (l : List α), (∀ a ∈ l, f a = Except.ok (g a)) →
    l.mapM' f = Except.ok (l.map g)
  | [], _ => rfl
  | a :: rest, h => by
    simp only [List.mapM']
    rw [h a (List.mem_cons_self a rest)]
    simp only [except_bind_ok]
    rw [mapM'_ok f g rest (fun x hx => h x (List.mem_cons_of_mem _ hx))]
    simp only [except_bind_ok]
    rfl

theorem getGoalsBySprintId_mem (sid : String) (st : StoreState) :
    ∀ g ∈ MockStorage.getGoalsBySprintId sid st, g ∈ st.goals ∧ g.sprint_id = sid := by
  intro g hg
  simp only [MockStorage.getGoalsBySprintId] at hg
  have := List.mem_filter.mp (mem_sortBy.mp hg)
  exact ⟨this.1, by simpa using this.2⟩

theorem getCriteriaByGoalId_mem (gid : String) (st : StoreState) :
    ∀ c ∈ MockStorage.getCriteriaByGoalId gid st, c ∈ st.criteria ∧ c.goal_id = gid := by
  intro c hcm
  simp only [MockStorage.getCriteriaByGoalId] at hcm
  have := List.mem_filter.mp hcm
  exact ⟨this.1, by simpa using this.2⟩

theorem exportTree_shape (st : StoreState) :
    ∀ sd ∈ ExportService.exportTree st,
      sd.sprint ∈ st.sprints ∧
      sd.goals = (MockStorage.getGoalsBySprintId sd.sprint.id st).map
        (fun g => ⟨g, MockStorage.getCriteriaByGoalId g.id st⟩) := by
  intro sd hsd
  simp only [ExportService.exportTree, List.mem_map] at hsd
  obtain ⟨s, hsm, heq⟩ := hsd
  subst heq
  exact ⟨mem_sortBy.mp hsm, rfl⟩

theorem exportAll_inner (st : StoreState) (s : Sprint)
    (hs : isValidUUID s.id = true)
    (hg : ∀ g ∈ st.goals, isValidUUID g.id = true) :
    (do
      let goals ← GoalService.getBySprintId s.id st
      let gwc ← goals.mapM (fun g => do
        let crits ← CriterionService.getByGoalId g.id st
        pure (⟨g, crits⟩ : GoalWithCriteria))
      pure (⟨s, gwc⟩ : SprintWithGoals)) =
    Except.ok (⟨s, (MockStorage.getGoalsBySprintId s.id st).map
      (fun g => ⟨g, MockStorage.getCriteriaByGoalId g.id st⟩)⟩ : SprintWithGoals) := by
  have h1 : GoalService.getBySprintId s.id st =
      Except.ok (MockStorage.getGoalsBySprintId s.id st) := by
    simp [GoalService.getBySprintId, hs]
  rw [h1]
  simp only [except_bind_ok]
  have h2 : (MockStorage.getGoalsBySprintId s.id st).mapM (fun g => do
      let crits ← CriterionService.getByGoalId g.id st
      pure (⟨g, crits⟩ : GoalWithCriteria)) =
    Except.ok ((MockStorage.getGoalsBySprintId s.id st).map
      (fun g => (⟨g, MockStorage.getCriteriaByGoalId g.id st⟩ : GoalWithCriteria))) := by
    rw [← List.mapM'_eq_mapM]
    apply mapM'_ok
    intro g hgm
    have hgv : isValidUUID g.id = true := hg g ((getGoalsBySprintId_mem s.id st g hgm).1)
    have h3 : CriterionService.getByGoalId g.id st =
        Except.ok (MockStorage.getCriteriaByGoalId g.id st) := by
      simp [CriterionService.getByGoalId, hgv]
    rw [h3]
    rfl
  rw [h2]
  rfl

theorem exportAll_ok (ts : String) (st : StoreState)
    (hs : ∀ s ∈ st.sprints, isValidUUID s.id = true)
    (hg : ∀ g ∈ st.goals, isValidUUID g.id = true) :
    ExportService.exportAll ts st =
      Except.ok ⟨"1.0", ts, ExportService.exportTree st⟩ := by
  simp only [ExportService.exportAll]
  have houter : (MockStorage.getAllSprints st).mapM (fun s => do
        let goals ← GoalService.getBySprintId s.id st
        let gwc ← goals.mapM (fun g => do
          let crits ← CriterionService.getByGoalId g.id st
          pure (⟨g, crits⟩ : GoalWithCriteria))
        pure (⟨s, gwc⟩ : SprintWithGoals)) =
      Except.ok (ExportService.exportTree st) := by
    simp only [ExportService.exportTree]
    rw [← List.mapM'_eq_mapM]
    apply mapM'_ok
    intro s hsmem
    exact exportAll_inner st s (hs s (mem_sortBy.mp hsmem)) hg
  rw [houter]
  rfl

theorem importCritsFold_fresh :
    ∀ (cs : List SuccessCriterion) (acc : ImportResult × StoreState),
    (acc.2.criteria.map (fun c => c.id) ++ cs.map (fun c => c.id)).Nodup →
    ∃ n, cs.foldl (fun a c =>
        ({ a.1 with criteria := a.1.criteria + 1 }, MockStorage.createCriterion c a.2)) acc =
      ({ acc.1 with criteria := n },
       ⟨acc.2.sprints, acc.2.goals, acc.2.criteria ++ cs⟩)
  | [], acc, _ => ⟨acc.1.criteria, by simp⟩
  | c :: rest, acc, h => by
    have hfresh : ¬ c.id ∈ acc.2.criteria.map (fun c => c.id) := by
      simp only [List.map_cons] at h
      exact not_mem_left_of_nodup_append h
    have hcc : MockStorage.createCriterion c acc.2 =
        ⟨acc.2.sprints, acc.2.goals, acc.2.criteria ++ [c]⟩ := by
      simp only [MockStorage.createCriterion]
      rw [mapSet_fresh _ _ _ hfresh]
    obtain ⟨n, hrest⟩ := importCritsFold_fresh rest
      ({ acc.1 with criteria := acc.1.criteria + 1 },
       ⟨acc.2.sprints, acc.2.goals, acc.2.criteria ++ [c]⟩)
      (by
        simp only [List.map_cons] at h
        rw [List.append_cons] at h
        simpa [List.map_append] using h)
    refine ⟨n, ?_⟩
    simp only [List.foldl_cons]
    rw [hcc, hrest]
    simp only [List.append_assoc, List.cons_append, List.nil_append]

theorem importGoalsFold_fresh :
    ∀ (gs : List GoalWithCriteria) (acc : ImportResult × StoreState),
    (acc.2.goals.map (fun g => g.id) ++ gs.map (fun gwc => gwc.goal.id)).Nodup →
    (acc.2.criteria.map (fun c => c.id) ++
      ((gs.map (fun gwc => gwc.success_criteria)).flatten).map (fun c => c.id)).Nodup →
    ∃ ng nc, gs.foldl (fun a gwc => ExportService.importOneGoal gwc a) acc =
      ({ acc.1 with goals := ng, criteria := nc },
       ⟨acc.2.sprints, acc.2.goals ++ gs.map (fun gwc => gwc.goal),
        acc.2.criteria ++ (gs.map (fun gwc => gwc.success_criteria)).flatten⟩)
  | [], acc, _, _ => ⟨acc.1.goals, acc.1.criteria, by simp⟩
  | gwc :: rest, acc, hg, hc => by
    have hgfresh : ¬ gwc.goal.id ∈ acc.2.goals.map (fun g => g.id) := by
      simp only [List.map_cons] at hg
      exact not_mem_left_of_nodup_append hg
    have hcg : MockStorage.createGoal gwc.goal acc.2 =
        ⟨acc.2.sprints, acc.2.goals ++ [gwc.goal], acc.2.criteria⟩ := by
      simp only [MockStorage.createGoal]
      rw [mapSet_fresh _ _ _ hgfresh]
    have hcsub : ((⟨acc.2.sprints, acc.2.goals ++ [gwc.goal], acc.2.criteria⟩ :
        StoreState).criteria.map (fun c => c.id) ++
        gwc.success_criteria.map (fun c => c.id)).Nodup := by
      simp only [List.map_cons, List.flatten_cons, List.map_append] at hc
      rw [← List.append_assoc] at hc
      exact hc.of_append_left
    obtain ⟨n, hcf⟩ := importCritsFold_fresh gwc.success_criteria
      ({ acc.1 with goals := acc.1.goals + 1 },
       ⟨acc.2.sprints, acc.2.goals ++ [gwc.goal], acc.2.criteria⟩) hcsub
    have hone : ExportService.importOneGoal gwc acc =
        ({ acc.1 with goals := acc.1.goals + 1, criteria := n },
         ⟨acc.2.sprints, acc.2.goals ++ [gwc.goal],
          acc.2.criteria ++ gwc.success_criteria⟩) := by
      simp only [ExportService.importOneGoal]
      rw [hcg, hcf]
    have hg' : ((⟨acc.2.sprints, acc.2.goals ++ [gwc.goal],
        acc.2.criteria ++ gwc.success_criteria⟩ : StoreState).goals.map (fun g => g.id) ++
        rest.map (fun x => x.goal.id)).Nodup := by
      simp only [List.map_cons] at hg
      rw [List.append_cons] at hg
      simpa [List.map_append] using hg
    have hc' : ((⟨acc.2.sprints, acc.2.goals ++ [gwc.goal],
        acc.2.criteria ++ gwc.success_criteria⟩ : StoreState).criteria.map (fun c => c.id) ++
        ((rest.map (fun x => x.success_criteria)).flatten).map (fun c => c.id)).Nodup := by
      simp only [List.map_cons, List.flatten_cons, List.map_append] at hc
      rw [← List.append_assoc] at hc
      simpa [List.map_append] using hc
    obtain ⟨ng, nc, hrest⟩ := importGoalsFold_fresh rest
      ({ acc.1 with goals := acc.1.goals + 1, criteria := n },
       ⟨acc.2.sprints, acc.2.goals ++ [gwc.goal],
        acc.2.criteria ++ gwc.success_criteria⟩) hg' hc'
    refine ⟨ng, nc, ?_⟩
    simp only [List.foldl_cons]
    rw [hone, hrest]
    simp only [List.map_cons, List.flatten_cons, List.append_assoc,
      List.cons_append, List.nil_append]

theorem importLoop_fresh (ow : Bool) :
    ∀ (trees : List SprintWithGoals) (stats : ImportResult) (st : StoreState),
    (∀ sd ∈ trees, isValidUUID sd.sprint.id = true) →
    (st.sprints.map (fun s => s.id) ++ trees.map (fun sd => sd.sprint.id)).Nodup →
    (st.goals.map (fun g => g.id) ++ (treeGoals trees).map (fun g => g.id)).Nodup →
    (st.criteria.map (fun c => c.id) ++ (treeCriteria trees).map (fun c => c.id)).Nodup →
    ∃ ns ng nc, ExportService.importLoop ow trees stats st =
      ({ stats with sprints := ns, goals := ng, criteria := nc },
       ⟨st.sprints ++ trees.map (fun sd => sd.sprint), st.goals ++ treeGoals trees,
        st.criteria ++ treeCriteria trees⟩, none)
  | [], stats, st, _, _, _, _ => ⟨stats.sprints, stats.goals, stats.criteria, by
      simp [ExportService.importLoop, treeGoals, treeCriteria]⟩
  | sd :: rest, stats, st, hUUID, hsn, hgn, hcn => by
    have hv : isValidUUID sd.sprint.id = true := hUUID sd (List.mem_cons_self sd rest)
    have hsfresh : ¬ sd.sprint.id ∈ st.sprints.map (fun s => s.id) := by
      simp only [List.map_cons] at hsn
      exact not_mem_left_of_nodup_append hsn
    have hfind0 : st.sprints.find? (fun s => s.id == sd.sprint.id) = none :=
      find?_beq_none (fun s => s.id) st.sprints sd.sprint.id hsfresh
    have hfind : MockStorage.getSprintById sd.sprint.id st = none := hfind0
    have hcs : MockStorage.createSprint sd.sprint st =
        ⟨st.sprints ++ [sd.sprint], st.goals, st.criteria⟩ := by
      simp only [MockStorage.createSprint]
      rw [mapSet_fresh _ _ _ hsfresh]
    have hgsub : ((⟨st.sprints ++ [sd.sprint], st.goals, st.criteria⟩ :
        StoreState).goals.map (fun g => g.id) ++
        sd.goals.map (fun gwc => gwc.goal.id)).Nodup := by
      simp only [treeGoals, List.map_cons, List.flatten_cons, List.map_append] at hgn
      rw [← List.append_assoc] at hgn
      have := hgn.of_append_left
      simpa [List.map_map] using this
    have hcsub : ((⟨st.sprints ++ [sd.sprint], st.goals, st.criteria⟩ :
        StoreState).criteria.map (fun c => c.id) ++
        ((sd.goals.map (fun gwc => gwc.success_criteria)).flatten).map (fun c => c.id)).Nodup := by
      simp only [treeCriteria, List.map_cons, List.flatten_cons, List.map_append] at hcn
      rw [← List.append_assoc] at hcn
      exact hcn.of_append_left
    obtain ⟨ng, nc, hfold⟩ := importGoalsFold_fresh sd.goals
      ({ stats with sprints := stats.sprints + 1 },
       ⟨st.sprints ++ [sd.sprint], st.goals, st.criteria⟩) hgsub hcsub
    have hUUID' : ∀ x ∈ rest, isValidUUID x.sprint.id = true :=
      fun x hx => hUUID x (List.mem_cons_of_mem _ hx)
    have hsn' : ((⟨st.sprints ++ [sd.sprint], st.goals ++ sd.goals.map (fun gwc => gwc.goal),
        st.criteria ++ (sd.goals.map (fun gwc => gwc.success_criteria)).flatten⟩ :
        StoreState).sprints.map (fun s => s.id) ++ rest.map (fun x => x.sprint.id)).Nodup := by
      simp only [List.map_cons] at hsn
      rw [List.append_cons] at hsn
      simpa [List.map_append] using hsn
    have hgn' : ((⟨st.sprints ++ [sd.sprint], st.goals ++ sd.goals.map (fun gwc => gwc.goal),
        st.criteria ++ (sd.goals.map (fun gwc => gwc.success_criteria)).flatten⟩ :
        StoreState).goals.map (fun g => g.id) ++ (treeGoals rest).map (fun g => g.id)).Nodup := by
      simp only [treeGoals, List.map_cons, List.flatten_cons, List.map_append] at hgn
      rw [← List.append_assoc] at hgn
      simpa [List.map_append, treeGoals] using hgn
    have hcn' : ((⟨st.sprints ++ [sd.sprint], st.goals ++ sd.goals.map (fun gwc => gwc.goal),
        st.criteria ++ (sd.goals.map (fun gwc => gwc.success_criteria)).flatten⟩ :
        StoreState).criteria.map (fun c => c.id) ++
        (treeCriteria rest).map (fun c => c.id)).Nodup := by
      simp only [treeCriteria, List.map_cons, List.flatten_cons, List.map_append] at hcn
      rw [← List.append_assoc] at hcn
      simpa [List.map_append, treeCriteria] using hcn
    obtain ⟨ns', ng', nc', hrest⟩ := importLoop_fresh ow rest
      { stats with sprints := stats.sprints + 1, goals := ng, criteria := nc }
      ⟨st.sprints ++ [sd.sprint], st.goals ++ sd.goals.map (fun gwc => gwc.goal),
       st.criteria ++ (sd.goals.map (fun gwc => gwc.success_criteria)).flatten⟩
      hUUID' hsn' hgn' hcn'
    refine ⟨ns', ng', nc', ?_⟩
    simp only [ExportService.importLoop, hv, Bool.not_true, Bool.false_eq_true,
      if_false, hfind]
    rw [hcs, hfold]
    simp only [hrest]
    simp only [treeGoals, treeCriteria, List.map_cons, List.flatten_cons,
      List.map_append, List.append_assoc, List.cons_append, List.nil_append]

theorem flatten_perm_congr {α β : Type} (f g : α → List β) :
    ∀ (A : List α), (∀ a ∈ A, (f a).Perm (g a)) →
    ((A.map f).flatten).Perm ((A.map g).flatten)
  | [], _ => List.Perm.refl _
  | a :: rest, h => by
    simp only [List.map_cons, List.flatten_cons]
    exact List.Perm.append (h a (List.mem_cons_self a rest))
      (flatten_perm_congr f g rest (fun x hx => h x (List.mem_cons_of_mem _ hx)))

theorem fiber_partition {α : Type} (key : α → String) :
    ∀ (ks : List String) (l : List α), ks.Nodup → (∀ x ∈ l, key x ∈ ks) →
    ((ks.map (fun k => l.filter (fun x => key x == k))).flatten).Perm l
  | [], l, _, hcov => by
    have hl : l = [] := by
      cases l with
      | nil => rfl
      | cons x xs => exact absurd (hcov x (List.mem_cons_self x xs)) (List.not_mem_nil _)
    subst hl
    exact List.Perm.refl _
  | k :: ks', l, hnd, hcov => by
    simp only [List.map_cons, List.flatten_cons]
    have hknotin : ¬ k ∈ ks' := (List.nodup_cons.mp hnd).1
    have hnd' : ks'.Nodup := (List.nodup_cons.mp hnd).2
    have hfibeq : ∀ k' ∈ ks', l.filter (fun x => key x == k') =
        (l.filter (fun x => !(key x == k))).filter (fun x => key x == k') := by
      intro k' hk'
      have hkk : k' ≠ k := fun he => hknotin (he ▸ hk')
      rw [List.filter_filter]
      apply List.filter_congr
      intro x hx
      by_cases hxk : (key x == k') = true
      · have hxeq : key x = k' := by simpa using hxk
        have hne : (key x == k) = false := by simp [hxeq, hkk]
        simp [hxk, hne]
      · have hxf : (key x == k') = false := by
          rw [← Bool.not_eq_true]
          exact hxk
        simp [hxf]
    rw [List.map_congr_left hfibeq]
    have hIH := fiber_partition key ks' (l.filter (fun x => !(key x == k))) hnd' (by
      intro x hx
      have hxm := List.mem_filter.mp hx
      have hne : ¬ key x = k := by simpa using hxm.2
      cases List.mem_cons.mp (hcov x hxm.1) with
      | inl h => exact absurd h hne
      | inr h => exact h)
    exact (List.Perm.append_left _ hIH).trans
      (List.filter_append_perm (fun x => key x == k) l)

theorem flatten_map_flatten {α β γ : Type} (f : α → List β) (h : β → List γ) :
    ∀ (A : List α),
    ((A.map (fun a => ((f a).map h).flatten)).flatten) =
    (((A.map f).flatten).map h).flatten
  | [] => rfl
  | a :: rest => by
    simp only [List.map_cons, List.flatten_cons, List.map_append, List.flatten_append]
    rw [flatten_map_flatten f h rest]

theorem flatten_filter_single {α β : Type} (key : α → String) (kid : β → String)
    (f : β → List α) :
    ∀ (ts : List β) (s : β), s ∈ ts → (ts.map kid).Nodup →
    (∀ t ∈ ts, ∀ x ∈ f t, key x = kid t) →
    ((ts.map f).flatten).filter (fun x => key x == kid s) = f s
  | [], s, hmem, _, _ => absurd hmem (List.not_mem_nil s)
  | t :: rest, s, hmem, hnd, hkey => by
    simp only [List.map_cons, List.flatten_cons, List.filter_append]
    simp only [List.map_cons] at hnd
    have hndc := List.nodup_cons.mp hnd
    cases List.mem_cons.mp hmem with
    | inl hst =>
      subst hst
      have h1 : (f s).filter (fun x => key x == kid s) = f s := by
        rw [List.filter_eq_self]
        intro x hx
        simp [hkey s (List.mem_cons_self s rest) x hx]
      have h2 : ((rest.map f).flatten).filter (fun x => key x == kid s) = [] := by
        rw [List.filter_eq_nil_iff]
        intro x hx
        rw [List.mem_flatten] at hx
        obtain ⟨gl, hgl, hxin⟩ := hx
        obtain ⟨t', ht', rfl⟩ := List.mem_map.mp hgl
        have hkx : key x = kid t' := hkey t' (List.mem_cons_of_mem _ ht') x hxin
        have hne : kid t' ≠ kid s := by
          intro he
          exact hndc.1 (he ▸ List.mem_map_of_mem kid ht')
        simp [hkx, hne]
      rw [h1, h2, List.append_nil]
    | inr hsr =>
      have hne : kid s ≠ kid t := by
        intro he
        exact hndc.1 (he ▸ List.mem_map_of_mem kid hsr)
      have h1 : (f t).filter (fun x => key x == kid s) = [] := by
        rw [List.filter_eq_nil_iff]
        intro x hx
        have hkx := hkey t (List.mem_cons_self t rest) x hx
        simp only [hkx, beq_iff_eq]
        exact fun he => hne he.symm
      rw [h1, List.nil_append]
      exact flatten_filter_single key kid f rest s hsr hndc.2
        (fun t' ht' => hkey t' (List.mem_cons_of_mem _ ht'))

theorem exportTree_sprints (st : StoreState) :
    (ExportService.exportTree st).map (fun sd => sd.sprint) = sortBy volLe st.sprints := by
  simp only [ExportService.exportTree, List.map_map, MockStorage.getAllSprints]
  trans ((sortBy volLe st.sprints).map id)
  · exact List.map_congr_left (fun x _ => rfl)
  · exact List.map_id _

theorem treeGoals_exportTree (st : StoreState) :
    treeGoals (ExportService.exportTree st) =
    ((sortBy volLe st.sprints).map (fun s => MockStorage.getGoalsBySprintId s.id st)).flatten := by
  simp only [treeGoals, ExportService.exportTree, List.map_map, MockStorage.getAllSprints]
  congr 1
  apply List.map_congr_left
  intro s hs
  show ((MockStorage.getGoalsBySprintId s.id st).map
      (fun g => (⟨g, MockStorage.getCriteriaByGoalId g.id st⟩ : GoalWithCriteria))).map
      (fun gwc => gwc.goal) = MockStorage.getGoalsBySprintId s.id st
  rw [List.map_map]
  trans ((MockStorage.getGoalsBySprintId s.id st).map id)
  · exact List.map_congr_left (fun x _ => rfl)
  · exact List.map_id _

theorem exportTree_gwc (st : StoreState) :
    ∀ gwc ∈ ((ExportService.exportTree st).map (fun sd => sd.goals)).flatten,
      gwc.success_criteria = MockStorage.getCriteriaByGoalId gwc.goal.id st := by
  intro gwc h
  rw [List.mem_flatten] at h
  obtain ⟨gl, hgl, hin⟩ := h
  obtain ⟨sd, hsd, rfl⟩ := List.mem_map.mp hgl
  have hshape := (exportTree_shape st sd hsd).2
  rw [hshape] at hin
  obtain ⟨g, hg, rfl⟩ := List.mem_map.mp hin
  rfl

theorem treeCriteria_exportTree (st : StoreState) :
    treeCriteria (ExportService.exportTree st) =
    ((treeGoals (ExportService.exportTree st)).map
      (fun g => MockStorage.getCriteriaByGoalId g.id st)).flatten := by
  have h1 : treeCriteria (ExportService.exportTree st) =
      ((((ExportService.exportTree st).map (fun sd => sd.goals)).flatten).map
        (fun gwc => gwc.success_criteria)).flatten :=
    flatten_map_flatten (fun sd : SprintWithGoals => sd.goals)
      (fun gwc : GoalWithCriteria => gwc.success_criteria)
      (ExportService.exportTree st)
  rw [h1, List.map_congr_left (exportTree_gwc st)]
  have h3 : treeGoals (ExportService.exportTree st) =
      (((ExportService.exportTree st).map (fun sd => sd.goals)).flatten).map
        (fun gwc => gwc.goal) := by
    simp only [treeGoals]
    rw [List.map_flatten]
    congr 1
    simp only [List.map_map]
    exact List.map_congr_left (fun x _ => rfl)
  rw [h3, List.map_map]
  exact congrArg List.flatten (List.map_congr_left (fun x _ => rfl))

theorem treeGoals_perm (st : StoreState)
    (hnds : (st.sprints.map (fun s => s.id)).Nodup)
    (hri : ∀ g ∈ st.goals, g.sprint_id ∈ st.sprints.map (fun s => s.id)) :
    (treeGoals (ExportService.exportTree st)).Perm st.goals := by
  rw [treeGoals_exportTree]
  have h1 : (((sortBy volLe st.sprints).map
        (fun s => MockStorage.getGoalsBySprintId s.id st)).flatten).Perm
      (((sortBy volLe st.sprints).map
        (fun s => st.goals.filter (fun g => g.sprint_id == s.id))).flatten) :=
    flatten_perm_congr _ _ _ (fun s _ => sortBy_perm dateLe _)
  refine h1.trans ?_
  have h2 : ((sortBy volLe st.sprints).map
        (fun s => st.goals.filter (fun g => g.sprint_id == s.id))) =
      (((sortBy volLe st.sprints).map (fun s => s.id)).map
        (fun k => st.goals.filter (fun g => g.sprint_id == k))) := by
    rw [List.map_map]
    exact List.map_congr_left (fun x _ => rfl)
  rw [h2]
  refine fiber_partition (fun g : Goal => g.sprint_id)
    ((sortBy volLe st.sprints).map (fun s => s.id)) st.goals ?_ ?_
  · exact ((sortBy_perm volLe st.sprints).map (fun s => s.id)).nodup_iff.mpr hnds
  · intro g hg
    exact ((sortBy_perm volLe st.sprints).map (fun s => s.id)).mem_iff.mpr (hri g hg)

theorem treeCriteria_perm (st : StoreState)
    (hnds : (st.sprints.map (fun s => s.id)).Nodup)
    (hndg : (st.goals.map (fun g => g.id)).Nodup)
    (hrig : ∀ g ∈ st.goals, g.sprint_id ∈ st.sprints.map (fun s => s.id))
    (hric : ∀ c ∈ st.criteria, c.goal_id ∈ st.goals.map (fun g => g.id)) :
    (treeCriteria (ExportService.exportTree st)).Perm st.criteria := by
  rw [treeCriteria_exportTree]
  have hperm := treeGoals_perm st hnds hrig
  have h2 : ((treeGoals (ExportService.exportTree st)).map
        (fun g => MockStorage.getCriteriaByGoalId g.id st)) =
      (((treeGoals (ExportService.exportTree st)).map (fun g => g.id)).map
        (fun k => st.criteria.filter (fun c => c.goal_id == k))) := by
    rw [List.map_map]
    exact List.map_congr_left (fun x _ => rfl)
  rw [h2]
  refine fiber_partition (fun c : SuccessCriterion => c.goal_id)
    ((treeGoals (ExportService.exportTree st)).map (fun g => g.id)) st.criteria ?_ ?_
  · exact (hperm.map (fun g => g.id)).nodup_iff.mpr hndg
  · intro c hc
    exact (hperm.map (fun g => g.id)).mem_iff.mpr (hric c hc)

theorem sprintFieldsOK_uuid {s : Sprint} (h : sprintFieldsOK s = true) :
    isValidUUID s.id = true := by
  simp only [sprintFieldsOK, Bool.and_eq_true] at h
  exact h.1.1.1

theorem goalFieldsOK_uuid {g : Goal} (h : goalFieldsOK g = true) :
    isValidUUID g.id = true := by
  simp only [goalFieldsOK, Bool.and_eq_true] at h
  exact h.1.1.1.1.1.1.1.1

theorem importData_ok_eq (doc : ExportData) (ow : Bool) (st : StoreState)
    (A : ImportResult) (B : StoreState)
    (hval : ExportService.validateImportData doc = ⟨true, []⟩)
    (hle : ExportService.importLoop ow doc.sprints ⟨0, 0, 0, 0, []⟩ st = (A, B, none)) :
    ExportService.importData doc ow st = (A, B) := by
  simp only [ExportService.importData, hval, hle, Bool.not_true, Bool.false_eq_true, if_false]

theorem exportTree_roundtrip (st : StoreState)
    (hnds : (st.sprints.map (fun s => s.id)).Nodup)
    (hndg : (st.goals.map (fun g => g.id)).Nodup)
    (hrig : ∀ g ∈ st.goals, g.sprint_id ∈ st.sprints.map (fun s => s.id)) :
    ExportService.exportTree
      ⟨sortBy volLe st.sprints, treeGoals (ExportService.exportTree st),
       treeCriteria (ExportService.exportTree st)⟩ = ExportService.exportTree st := by
  have hsorted := sortBy_sorted volLe volLe_total volLe_trans st.sprints
  have hnds' : ((sortBy volLe st.sprints).map (fun s => s.id)).Nodup :=
    ((sortBy_perm volLe st.sprints).map (fun s => s.id)).nodup_iff.mpr hnds
  have hpermg := treeGoals_perm st hnds hrig
  have hndg' : ((treeGoals (ExportService.exportTree st)).map (fun g => g.id)).Nodup :=
    (hpermg.map (fun g => g.id)).nodup_iff.mpr hndg
  have hB : ∀ s ∈ sortBy volLe st.sprints,
      MockStorage.getGoalsBySprintId s.id
        (⟨sortBy volLe st.sprints, treeGoals (ExportService.exportTree st),
          treeCriteria (ExportService.exportTree st)⟩ : StoreState) =
      MockStorage.getGoalsBySprintId s.id st := by
    intro s hs
    have hf : (treeGoals (ExportService.exportTree st)).filter
        (fun g => g.sprint_id == s.id) = MockStorage.getGoalsBySprintId s.id st := by
      rw [treeGoals_exportTree]
      exact flatten_filter_single (fun g : Goal => g.sprint_id) (fun s : Sprint => s.id)
        (fun t => MockStorage.getGoalsBySprintId t.id st) (sortBy volLe st.sprints) s hs
        hnds' (fun t ht x hx => (getGoalsBySprintId_mem t.id st x hx).2)
    show sortBy dateLe ((treeGoals (ExportService.exportTree st)).filter
        (fun g => g.sprint_id == s.id)) = MockStorage.getGoalsBySprintId s.id st
    rw [hf]
    exact sortBy_eq_self (sortBy_sorted dateLe dateLe_total dateLe_trans _)
  have hC : ∀ g ∈ treeGoals (ExportService.exportTree st),
      MockStorage.getCriteriaByGoalId g.id
        (⟨sortBy volLe st.sprints, treeGoals (ExportService.exportTree st),
          treeCriteria (ExportService.exportTree st)⟩ : StoreState) =
      MockStorage.getCriteriaByGoalId g.id st := by
    intro g hg
    show (treeCriteria (ExportService.exportTree st)).filter
        (fun c => c.goal_id == g.id) = MockStorage.getCriteriaByGoalId g.id st
    rw [treeCriteria_exportTree]
    exact flatten_filter_single (fun c : SuccessCriterion => c.goal_id) (fun g : Goal => g.id)
      (fun t => MockStorage.getCriteriaByGoalId t.id st)
      (treeGoals (ExportService.exportTree st)) g hg hndg'
      (fun t ht x hx => (getCriteriaByGoalId_mem t.id st x hx).2)
  have hA : MockStorage.getAllSprints
      (⟨sortBy volLe st.sprints, treeGoals (ExportService.exportTree st),
        treeCriteria (ExportService.exportTree st)⟩ : StoreState) = sortBy volLe st.sprints := by
    show sortBy volLe (sortBy volLe st.sprints) = sortBy volLe st.sprints
    exact sortBy_eq_self hsorted
  have key : ∀ (stX : StoreState), ExportService.exportTree stX =
      (MockStorage.getAllSprints stX).map (fun s =>
        ⟨s, (MockStorage.getGoalsBySprintId s.id stX).map
          (fun g => ⟨g, MockStorage.getCriteriaByGoalId g.id stX⟩)⟩) := fun _ => rfl
  conv_lhs => rw [key]
  conv_rhs => rw [key]
  rw [hA, show MockStorage.getAllSprints st = sortBy volLe st.sprints from rfl]
  apply List.map_congr_left
  intro s hs
  rw [hB s hs]
  congr 1
  apply List.map_congr_left
  intro g hgm
  have hgmem : g ∈ treeGoals (ExportService.exportTree st) := by
    rw [treeGoals_exportTree]
    exact List.mem_flatten.mpr ⟨MockStorage.getGoalsBySprintId s.id st,
      List.mem_map_of_mem _ hs, hgm⟩
  rw [hC g hgmem]

theorem validateImportData_ok (doc : ExportData)
    (h : ∀ sd ∈ doc.sprints, sprintFieldsOK sd.sprint = true ∧
      ∀ g ∈ sd.goals, goalFieldsOK g.goal = true ∧
        ∀ c ∈ g.success_criteria, criterionOK c = true) :
    ExportService.validateImportData doc = ⟨true, []⟩ := by
  simp [ExportService.validateImportData, validateSprintsLoop_nil_of 0 doc.sprints h]

/-- C3: round-trip law.  For every well-formed store (distinct ids per
collection, referential integrity, stored fields in the validator-accepted
shapes the services enforce), `importData` applied to the document produced
by `exportAll`, run against the empty (cleared) store, succeeds with zero
reported errors and zero skips, re-creates every sprint, goal and criterion
field-for-field (the three resulting collections are permutations of the
originals, with the original ids, timestamps and tri-state achieved flag),
and re-exporting the resulting store yields the identical tree. -/
theorem C3_export_import_roundtrip (ts : String) (st : StoreState) (h : WF st) :
    ∃ doc : ExportData,
      ExportService.exportAll ts st = Except.ok doc ∧
      (ExportService.importData doc false emptyState).1.errors = [] ∧
      (ExportService.importData doc false emptyState).1.skipped = 0 ∧
      ExportService.exportTree (ExportService.importData doc false emptyState).2 =
        ExportService.exportTree st ∧
      ((ExportService.importData doc false emptyState).2.sprints).Perm st.sprints ∧
      ((ExportService.importData doc false emptyState).2.goals).Perm st.goals ∧
      ((ExportService.importData doc false emptyState).2.criteria).Perm st.criteria := by
  obtain ⟨hnds, hndg, hndc, hsOK, hgOK, hcOK⟩ := h
  have hexp : ExportService.exportAll ts st =
      Except.ok ⟨"1.0", ts, ExportService.exportTree st⟩ :=
    exportAll_ok ts st (fun s hs => sprintFieldsOK_uuid (hsOK s hs))
      (fun g hg => goalFieldsOK_uuid (hgOK g hg).1)
  have hvalpre : ∀ sd ∈ ExportService.exportTree st, sprintFieldsOK sd.sprint = true ∧
      ∀ g ∈ sd.goals, goalFieldsOK g.goal = true ∧
        ∀ c ∈ g.success_criteria, criterionOK c = true := by
    intro sd hsd
    obtain ⟨hsm, hshape⟩ := exportTree_shape st sd hsd
    refine ⟨hsOK sd.sprint hsm, ?_⟩
    intro gwc hgwc
    rw [hshape] at hgwc
    obtain ⟨g, hgm, rfl⟩ := List.mem_map.mp hgwc
    refine ⟨(hgOK g (getGoalsBySprintId_mem sd.sprint.id st g hgm).1).1, ?_⟩
    intro c hcm
    exact (hcOK c (getCriteriaByGoalId_mem g.id st c hcm).1).1
  have hval : ExportService.validateImportData ⟨"1.0", ts, ExportService.exportTree st⟩ =
      ⟨true, []⟩ :=
    validateImportData_ok _ hvalpre
  have hpermg := treeGoals_perm st hnds (fun g hg => (hgOK g hg).2)
  have hpermc := treeCriteria_perm st hnds hndg (fun g hg => (hgOK g hg).2)
    (fun c hc => (hcOK c hc).2)
  have hnds' : ((sortBy volLe st.sprints).map (fun s => s.id)).Nodup :=
    ((sortBy_perm volLe st.sprints).map (fun s => s.id)).nodup_iff.mpr hnds
  have hndg' : ((treeGoals (ExportService.exportTree st)).map (fun g => g.id)).Nodup :=
    (hpermg.map (fun g => g.id)).nodup_iff.mpr hndg
  have hndc' : ((treeCriteria (ExportService.exportTree st)).map (fun c => c.id)).Nodup :=
    (hpermc.map (fun c => c.id)).nodup_iff.mpr hndc
  have e1 : (ExportService.exportTree st).map (fun sd => sd.sprint.id) =
      (sortBy volLe st.sprints).map (fun s => s.id) := by
    have h0 := congrArg (List.map (fun s : Sprint => s.id)) (exportTree_sprints st)
    rw [List.map_map] at h0
    refine Eq.trans ?_ h0
    exact List.map_congr_left (fun x _ => rfl)
  have hUUIDtree : ∀ sd ∈ ExportService.exportTree st, isValidUUID sd.sprint.id = true :=
    fun sd hsd => sprintFieldsOK_uuid (hsOK sd.sprint (exportTree_shape st sd hsd).1)
  have hsn0 : (emptyState.sprints.map (fun s => s.id) ++
      (ExportService.exportTree st).map (fun sd => sd.sprint.id)).Nodup := by
    rw [show emptyState.sprints = ([] : List Sprint) from rfl]
    rw [List.map_nil, List.nil_append, e1]
    exact hnds'
  have hgn0 : (emptyState.goals.map (fun g => g.id) ++
      (treeGoals (ExportService.exportTree st)).map (fun g => g.id)).Nodup := by
    rw [show emptyState.goals = ([] : List Goal) from rfl]
    rw [List.map_nil, List.nil_append]
    exact hndg'
  have hcn0 : (emptyState.criteria.map (fun c => c.id) ++
      (treeCriteria (ExportService.exportTree st)).map (fun c => c.id)).Nodup := by
    rw [show emptyState.criteria = ([] : List SuccessCriterion) from rfl]
    rw [List.map_nil, List.nil_append]
    exact hndc'
  obtain ⟨ns, ng, nc, hle⟩ := importLoop_fresh false (ExportService.exportTree st)
    ⟨0, 0, 0, 0, []⟩ emptyState hUUIDtree hsn0 hgn0 hcn0
  have himp : ExportService.importData ⟨"1.0", ts, ExportService.exportTree st⟩
      false emptyState =
      ({ sprints := ns, goals := ng, criteria := nc, skipped := 0, errors := [] },
       ⟨emptyState.sprints ++ (ExportService.exportTree st).map (fun sd => sd.sprint),
        emptyState.goals ++ treeGoals (ExportService.exportTree st),
        emptyState.criteria ++ treeCriteria (ExportService.exportTree st)⟩) :=
    importData_ok_eq _ false emptyState _ _ hval hle
  have hstate : (⟨emptyState.sprints ++ (ExportService.exportTree st).map (fun sd => sd.sprint),
      emptyState.goals ++ treeGoals (ExportService.exportTree st),
      emptyState.criteria ++ treeCriteria (ExportService.exportTree st)⟩ : StoreState) =
      ⟨sortBy volLe st.sprints, treeGoals (ExportService.exportTree st),
       treeCriteria (ExportService.exportTree st)⟩ := by
    rw [show emptyState.sprints = ([] : List Sprint) from rfl,
      show emptyState.goals = ([] : List Goal) from rfl,
      show emptyState.criteria = ([] : List SuccessCriterion) from rfl,
      List.nil_append, List.nil_append, List.nil_append, exportTree_sprints]
  have himpA : (ExportService.importData ⟨"1.0", ts, ExportService.exportTree st⟩
      false emptyState).1 =
      { sprints := ns, goals := ng, criteria := nc, skipped := 0, errors := [] } := by
    rw [himp]
  have himpB : (ExportService.importData ⟨"1.0", ts, ExportService.exportTree st⟩
      false emptyState).2 =
      ⟨sortBy volLe st.sprints, treeGoals (ExportService.exportTree st),
       treeCriteria (ExportService.exportTree st)⟩ := by
    rw [himp]
    exact hstate
  refine ⟨⟨"1.0", ts, ExportService.exportTree st⟩, hexp, ?_, ?_, ?_, ?_, ?_, ?_⟩
  · rw [himpA]
  · rw [himpA]
  · rw [himpB]
    exact exportTree_roundtrip st hnds hndg (fun g hg => (hgOK g hg).2)
  · rw [himpB]
    exact sortBy_perm volLe st.sprints
  · rw [himpB]
    exact hpermg
  · rw [himpB]
    exact hpermc

theorem C3_export_import_roundtrip_witness :
    WF fullStore ∧
    ∃ doc : ExportData,
      ExportService.exportAll "2026-02-01T00:00:00.000Z" fullStore = Except.ok doc ∧
      (ExportService.importData doc false emptyState).1.errors = [] ∧
      (ExportService.importData doc false emptyState).1.skipped = 0 ∧
      ExportService.exportTree (ExportService.importData doc false emptyState).2 =
        ExportService.exportTree fullStore ∧
      ((ExportService.importData doc false emptyState).2.sprints).Perm fullStore.sprints ∧
      ((ExportService.importData doc false emptyState).2.goals).Perm fullStore.goals ∧
      ((ExportService.importData doc false emptyState).2.criteria).Perm fullStore.criteria :=
  ⟨by unfold WF; decide,
   C3_export_import_roundtrip "2026-02-01T00:00:00.000Z" fullStore (by unfold WF; decide)⟩

end SprintTracker
